import Mathlib

/-!
# calendar-condenser-ui — stream reducer verification

Shallow embedding of the client-side incremental state reducer of
`src/App.tsx` (the first exported `App` component, lines 680–1459): the
`handleStart` / `handleResume` streaming read loops, the timeline helpers
(`removeLastLoadingIndicator`, `addTimelineItem`), the accumulated-state
folding functions (`updateAccumulatedState`,
`updateAccumulatedStateFromResponse`), the conversation and subgraph message
processors, and the request construction.

Modelling conventions, documented once here:

* React state is modelled as a `ComponentState` record threaded through the
  processing functions.  Every `setX(value)` write and every functional
  update `setX(prev => f(prev))` is applied immediately to the threaded
  state: functional updaters receive React's latest state, and plain writes
  only ever overwrite, so immediate application is faithful for them.

* The one direct *read* of React state inside the read loops —
  `seenStateKeys.has(stateKey)` — is different.  `seenStateKeys` is a
  `const` binding destructured from `useState` in the render that created
  the running handler closure; `setSeenStateKeys` schedules an update that
  is only visible to *later* renders and never rebinds the running async
  closure (the sets are never mutated in place, a fresh `Set` is built each
  time).  The loop therefore always consults the value captured when the
  handler was created.  This captured value is passed to the processing
  functions as the explicit `snapshot` argument, while the component-state
  field `seenStateKeys` receives the functional updates.

* `Date.now()` is modelled by a monotone `clock : Nat` in the component
  state which ticks once per parsed record.

* `JSON.parse` cannot be embedded; the line parser is an explicit
  `parse : String → Option Record` argument (`none` models a parse throw
  caught by the per-line `try`/`catch`).  A `Record` carries exactly the
  fields the reducer reads from a parsed JSON object.

* A `null` value arriving under a `$.invoke_send_rescheduling_proposal…`
  key makes the source code read a property of `null` inside a queued state
  updater, which throws during React's next render and crashes the
  component (it is not caught by the per-line `catch`).  This is modelled
  by the `crashed` flag.

* A network failure (a rejected `fetch`, a missing body, or a read error)
  lands in the handler's `catch` block.  A session's incoming stream is
  modelled as `NetworkStream`: the list of decoded text chunks delivered
  before the failure, plus a `fails` flag; a failure after a prefix of the
  stream is represented by a `NetworkStream` holding that prefix with
  `fails := true`.
-/

namespace CalendarUI

/-- `User` interface of the source (`given_name`, `timezone`, `avatar_url`,
optional `preffered_working_hours` — the misspelling is the source's). -/
structure User where
  id : String
  given_name : String
  timezone : String
  avatar_url : String
  preffered_working_hours : Option (Nat × Nat)
deriving DecidableEq, Repr

/-- `CalendarEvent` interface.  The `invitees : any[]` field is never
inspected by the reducer; it is carried as a list of opaque strings. -/
structure CalendarEvent where
  id : String
  title : String
  description : Option String
  start_time : String
  end_time : String
  invitees : List String
deriving DecidableEq, Repr

/-- `Calendar` interface. -/
structure Calendar where
  id : String
  name : String
  owner : String
  created_at : String
  updated_at : String
  events : Option (List CalendarEvent)
deriving DecidableEq, Repr

/-- `OutgoingMessage` interface. -/
structure OutgoingMessage where
  platform_id : String
  content : String
  sent_at : String
  from_user : User
  to_user : User
deriving DecidableEq, Repr

/-- `IncomingMessage` interface (same shape as `OutgoingMessage` in the
source, kept separate as the source does). -/
structure IncomingMessage where
  platform_id : String
  content : String
  sent_at : String
  from_user : User
  to_user : User
deriving DecidableEq, Repr

/-- `ConversationMessage` interface. -/
structure ConversationMessage where
  platform_id : String
  content : String
  sent_at : String
  from_user : User
  to_user : User
deriving DecidableEq, Repr

/-- `PendingRescheduledEvent` interface. -/
structure PendingRescheduledEvent where
  type : String
  original_event : CalendarEvent
  new_start_time : String
  new_end_time : String
  explanation : String
deriving DecidableEq, Repr

/-- An entry of `AccumulatedState.conversations`, which the source types as
`(OutgoingMessage | IncomingMessage)[]`. -/
inductive ChatMsg where
  | out (m : OutgoingMessage)
  | inc (m : IncomingMessage)
deriving DecidableEq, Repr

/-- The fields the reducer reads from a JSON object arriving as the value of
a `$.`-prefixed state key (`data[stateKey]`).  Absent JSON fields are
`none`. -/
structure StatePayload where
  user : Option User
  calendar : Option Calendar
  invitees : Option (List User)
  invitee_calendars : Option (List (String × Calendar))
  pending_rescheduling_proposals : Option (List PendingRescheduledEvent)
  conversations_by_invitee : Option (List (String × List ConversationMessage))
  sent_message : Option OutgoingMessage
  received_message : Option IncomingMessage
  message_analysis : Option String
deriving DecidableEq, Repr

/-- A JSON value sitting under a `$.`-prefixed key: either JSON `null`
(checked by `data[stateKey] !== null`) or an object. -/
inductive StateVal where
  | null
  | obj (p : StatePayload)
deriving DecidableEq, Repr

/-- A parsed JSON line (`data = JSON.parse(line)`), restricted to the fields
the reducer reads: the `type` discriminator, `id`, `content`,
`response_metadata?.finish_reason === "stop"` (as a Bool), the ordered
`$.`-prefixed entries of the object (for
`Object.keys(data).find(key => key.startsWith('$.'))` — non-`$.` keys can
never satisfy the find, so only the `$.` entries are listed), and the
top-level fields read by `updateAccumulatedStateFromResponse`. -/
structure Record where
  type : Option String
  id : Option String
  content : Option String
  finish_reason_stop : Bool
  fields : List (String × StateVal)
  user : Option User
  calendar : Option Calendar
  invitees : Option (List User)
  invitee_calendars : Option (List (String × Calendar))
  pending_rescheduling_proposals : Option (List PendingRescheduledEvent)
  sent_message : Option OutgoingMessage
  received_message : Option IncomingMessage
deriving DecidableEq, Repr

/-- `SubgraphMessageStatus` interface.  The source's
`updated[uuid].analyzed = data` stores the whole payload object, so
`analyzed : Option StatePayload`. -/
structure SubgraphMessageStatus where
  uuid : String
  toUser : User
  fromUser : User
  platform : String
  sent : Option OutgoingMessage
  received : Option IncomingMessage
  analyzed : Option StatePayload
deriving DecidableEq, Repr

/-- `AccumulatedState` interface.  `date` and
`completed_rescheduling_proposals` are declared in the source but never
written by the reducer; the latter's `any[]` entries are opaque. -/
structure AccumulatedState where
  user : Option User
  date : Option String
  calendar : Option Calendar
  invitees : Option (List User)
  invitee_calendars : Option (List (String × Calendar))
  pending_rescheduling_proposals : Option (List PendingRescheduledEvent)
  completed_rescheduling_proposals : Option (List String)
  conversations : Option (List (String × List ChatMsg))
deriving DecidableEq, Repr

/-- The empty accumulated state `{}`. -/
def emptyAccumulatedState : AccumulatedState :=
  { user := none, date := none, calendar := none, invitees := none,
    invitee_calendars := none, pending_rescheduling_proposals := none,
    completed_rescheduling_proposals := none, conversations := none }

/-- The `type` tags of `TimelineItem`. -/
inductive TLType where
  | ai_message
  | state_update
  | interrupt
  | response
  | subgraph_status
  | loading
deriving DecidableEq, Repr

/-- The `content : any` field of a timeline item, split by how the source
populates it: a string for `ai_message` items, the state value for
`state_update` items, the whole parsed record for `interrupt`, `loading`
and `response` items, and the `{ uuid, stage, data }` object for
`subgraph_status` items. -/
inductive TLContent where
  | text (s : String)
  | stateVal (v : StateVal)
  | record (r : Record)
  | subgraph (uuid : String) (stage : String) (data : StatePayload)
deriving DecidableEq, Repr

/-- `TimelineItem` interface. -/
structure TimelineItem where
  id : String
  timestamp : Nat
  type : TLType
  content : TLContent
  stateKey : Option String
  messageId : Option String
  responseType : Option String
  subgraphUuid : Option String
deriving DecidableEq, Repr

/-- The component's React state (the `useState` hooks of the first `App`),
plus the `seenStateIdsRef` ref, the constant `threadId`, the modelling
`clock` for `Date.now()`, and the `crashed` flag (see the header comment). -/
structure ComponentState where
  isStarted : Bool
  timeline : List TimelineItem
  accumulatedState : AccumulatedState
  inviteeUsers : List (String × User)
  seenStateKeys : List String
  waitingForNextState : Bool
  currentInterrupt : Option Record
  isResuming : Bool
  selectedInterruptOptions : List (String × String)
  subgraphMessages : List (String × SubgraphMessageStatus)
  conversations : List (String × List ConversationMessage)
  seenStateIds : List String
  threadId : String
  clock : Nat
  crashed : Bool
deriving DecidableEq, Repr

/-- The initial component state (all `useState` initial values). -/
def initialComponentState (threadId : String) : ComponentState :=
  { isStarted := false, timeline := [], accumulatedState := emptyAccumulatedState,
    inviteeUsers := [], seenStateKeys := [], waitingForNextState := false,
    currentInterrupt := none, isResuming := false, selectedInterruptOptions := [],
    subgraphMessages := [], conversations := [], seenStateIds := [],
    threadId := threadId, clock := 0, crashed := false }

/-- The body of the resume request (`Resume` interface). -/
structure ResumeBody where
  type : String
  value : String
  id : Option String
deriving DecidableEq, Repr

/-- An HTTP request as constructed by the handlers (`fetch` call). -/
structure HttpRequest where
  url : String
  method : String
  body : Option ResumeBody
deriving DecidableEq, Repr

/-- A session's incoming stream: the decoded text chunks delivered by
`reader.read()` before the stream ends, and whether the session's
`try` block throws (rejected fetch, missing body or read error). -/
structure NetworkStream where
  chunks : List String
  fails : Bool
deriving DecidableEq, Repr

/-! ## Small helpers: JS association objects, sets, coercions -/

/-- Lookup in a JS object modelled as an ordered association list. -/
def lookupA {α : Type} (l : List (String × α)) (k : String) : Option α :=
  (l.find? (fun kv => kv.1 = k)).map (fun kv => kv.2)

/-- JS object update `{ ...obj, [k]: v }` / property assignment: replaces the
value at an existing key in place, appends a new key at the end (JS object
keys are unique, so replacing the first occurrence is the same thing). -/
def upsertA {α : Type} (l : List (String × α)) (k : String) (v : α) :
    List (String × α) :=
  match l with
  | [] => [(k, v)]
  | kv :: rest => if kv.1 = k then (k, v) :: rest else kv :: upsertA rest k v

/-- `new Set([...prev, k])`: insertion-ordered set insert. -/
def insertSeen (l : List String) (k : String) : List String :=
  if k ∈ l then l else l ++ [k]

/-- `s.startsWith(pre)`, computed structurally on the character lists (the
core `String.startsWith` is byte-position based and does not reduce in the
kernel). -/
def strStartsWith (s pre : String) : Bool :=
  pre.toList.isPrefixOf s.toList

/-- `chunk.split("\n")` on character lists: JS `split` with a one-character
separator (`"ab\n\ncd".split("\n") = ["ab", "", "cd"]`, `"".split("\n") =
[""]`). -/
def splitOnNl : List Char → List (List Char)
  | [] => [[]]
  | c :: rest =>
    if c = '\n' then [] :: splitOnNl rest
    else
      match splitOnNl rest with
      | [] => [[c]]
      | l :: ls => (c :: l) :: ls

/-- JS template-literal / property-key coercion of a possibly-`undefined`
string (`undefined` prints as `"undefined"`). -/
def jsOptStr (o : Option String) : String := o.getD "undefined"

/-- JS truthiness of a possibly-absent string (absent and `""` are falsy). -/
def strTruthy (o : Option String) : Bool :=
  match o with
  | some s => !(s == "")
  | none => false

/-- First truthy string among the options, else the default — models
`a?.x || b?.x || "dflt"` chains on string fields. -/
def firstTruthyStr (opts : List (Option String)) (dflt : String) : String :=
  match opts with
  | [] => dflt
  | o :: rest =>
    match o with
    | some s => if s = "" then firstTruthyStr rest dflt else s
    | none => firstTruthyStr rest dflt

/-- First present value among the options, else the default — models
`a?.x || b?.x || dflt` chains on object fields (objects are truthy). -/
def firstSome {α : Type} (opts : List (Option α)) (dflt : α) : α :=
  match opts with
  | [] => dflt
  | o :: rest =>
    match o with
    | some v => v
    | none => firstSome rest dflt

/-! ## Timeline helpers (source lines 196–209) -/

/-- `removeLastLoadingIndicator`: drops the item at
`timeline.findLastIndex(item => item.type === "loading")`, if any.
Written as structural recursion: an item is kept whenever a loading item
still occurs later in the list; the final loading item (the one with no
loading item after it) is dropped. -/
def removeLastLoadingIndicator (timeline : List TimelineItem) :
    List TimelineItem :=
  match timeline with
  | [] => []
  | item :: rest =>
    if rest.any (fun it => it.type == TLType.loading) then
      item :: removeLastLoadingIndicator rest
    else if item.type == TLType.loading then rest
    else item :: rest

/-- `addTimelineItem`: append after removing the last loading indicator. -/
def addTimelineItem (timeline : List TimelineItem) (newItem : TimelineItem) :
    List TimelineItem :=
  removeLastLoadingIndicator timeline ++ [newItem]

/-! ## Accumulated-state folding (source lines 748–809 and 909–985) -/

/-- The base64 avatar data URI used for the placeholder user built from a
calendar owner. -/
def defaultAvatarDataUri : String :=
  "data:image/svg+xml;base64,PHN2ZyB3aWR0aD0iNjQiIGhlaWdodD0iNjQiIHZpZXdCb3g9IjAgMCA2NCA2NCIgZmlsbD0ibm9uZSIgeG1sbnM9Imh0dHA6Ly93d3cudzMub3JnLzIwMDAvc3ZnIj4KPGNpcmNsZSBjeD0iNjQiIGN5PSI2NCIgcj0iNjQiIGZpbGw9IiNEM0Q3RDAiLz4KPHBhdGggZD0iTTY0IDY0QzY3LjMxMzcgNjQgNzAgNjEuMzEzNyA3MCA1OEM3MCA1NC42ODYzIDY3LjMxMzcgNTIgNjQgNTJDNjAuNjg2MyA1MiA1OCA1NC42ODYzIDU4IDU4QzU4IDYxLjMxMzcgNjAuNjg2MyA2NCA2NCA2NFoiIGZpbGw9IiM5Q0EzQUYiLz4KPHBhdGggZD0iTTY0IDY2QzU2LjI2ODcgNjYgNTAgNzIuMjY4NyA1MCA4MEg3OEM3OCA3Mi4yNjg3IDcxLjczMTMgNjYgNjQgNjZaIiBmaWxsPSIjOUNBM0FGIi8+Cjwvc3ZnPgo="

/-- The placeholder `User` built from `data.calendar.owner` when no user is
known yet. -/
def defaultUserForOwner (owner : String) : User :=
  { id := owner, given_name := "User", timezone := "UTC",
    avatar_url := defaultAvatarDataUri,
    preffered_working_hours := some (9, 17) }

/-- Shared body of the `"$.load_calendar"` / `"$.load_calendar_after_update"`
cases: store the calendar and, when no user is known and the owner id is
truthy, install the placeholder user. -/
def applyCalendarUpdate (c : Calendar) (s : AccumulatedState) :
    AccumulatedState :=
  let s1 := { s with calendar := some c }
  if s1.user = none ∧ c.owner ≠ "" then
    { s1 with user := some (defaultUserForOwner c.owner) }
  else s1

/-- `updateAccumulatedState(stateKey, data)` (source lines 748–809), as a
pure function of the previous accumulated state.  Every case guards on
`data && data.<field>`, so a `null` payload changes nothing. -/
def updateAccumulatedState (stateKey : String) (data : StateVal)
    (prev : AccumulatedState) : AccumulatedState :=
  match data with
  | StateVal.null => prev
  | StateVal.obj p =>
    if stateKey = "$.load_user" then
      match p.user with
      | some u => { prev with user := some u }
      | none => prev
    else if stateKey = "$.load_calendar" then
      match p.calendar with
      | some c => applyCalendarUpdate c prev
      | none => prev
    else if stateKey = "$.load_calendar_after_update" then
      match p.calendar with
      | some c =>
        applyCalendarUpdate c
          { prev with pending_rescheduling_proposals := some [] }
      | none => prev
    else if stateKey = "$.load_invitees" then
      match p.invitees with
      | some l =>
        { prev with invitees := some l,
                    invitee_calendars := some (p.invitee_calendars.getD []) }
      | none => prev
    else if stateKey = "$.get_rescheduling_proposals" then
      match p.pending_rescheduling_proposals with
      | some l => { prev with pending_rescheduling_proposals := some l }
      | none => prev
    else prev

/-- Append a message to `newState.conversations[key]`, creating the map and
the entry when absent (source lines 948–955 and 964–972). -/
def pushConversation (conversations : Option (List (String × List ChatMsg)))
    (key : String) (m : ChatMsg) : Option (List (String × List ChatMsg)) :=
  let cs := conversations.getD []
  let entry := (lookupA cs key).getD []
  some (upsertA cs key (entry ++ [m]))

/-- `updateAccumulatedStateFromResponse(data)` (source lines 909–985). -/
def updateAccumulatedStateFromResponse (data : Record)
    (prev : AccumulatedState) : AccumulatedState :=
  if data.type = some "LoadUserResponse" then
    match data.user with
    | some u => { prev with user := some u }
    | none => prev
  else if data.type = some "LoadCalendarResponse" then
    match data.calendar with
    | some c => applyCalendarUpdate c prev
    | none => prev
  else if data.type = some "LoadInviteesResponse" then
    match data.invitees with
    | some l =>
      { prev with invitees := some l,
                  invitee_calendars := some (data.invitee_calendars.getD []) }
    | none => prev
  else if data.type = some "GetReschedulingProposalsResponse" then
    match data.pending_rescheduling_proposals with
    | some l => { prev with pending_rescheduling_proposals := some l }
    | none => prev
  else if data.type = some "SendMessageResponse" then
    match data.sent_message with
    | some m =>
      let s1 := { prev with
        conversations :=
          pushConversation prev.conversations m.to_user.id (ChatMsg.out m) }
      { s1 with user := some m.from_user }
    | none => prev
  else if data.type = some "ReceiveMessageResponse" then
    match data.received_message with
    | some m =>
      { prev with
        conversations :=
          pushConversation prev.conversations m.from_user.id (ChatMsg.inc m) }
    | none => prev
  else prev

/-! ## Conversation and subgraph message processing (source lines 811–907) -/

/-- `processConversationResponse(data)`: spread
`data.conversations_by_invitee` over the conversations map.  Spreading a
present object upserts each entry in order; an absent field spreads to
nothing; a `null` `data` throws reading `conversations_by_invitee` inside
the queued updater (modelled by `crashed`). -/
def processConversationResponse (v : StateVal) (st : ComponentState) :
    ComponentState :=
  match v with
  | StateVal.null => { st with crashed := true }
  | StateVal.obj p =>
    match p.conversations_by_invitee with
    | none => st
    | some l =>
      { st with conversations :=
          l.foldl (fun acc kv => upsertA acc kv.1 kv.2) st.conversations }

/-- The literal part of the regex
`/\.invoke_send_rescheduling_proposal_to_invitee:([^.]+)\.(.+)/`. -/
def subgraphLiteral : List Char :=
  ".invoke_send_rescheduling_proposal_to_invitee:".toList

/-- One anchored attempt of the regex at the head of `cs`: the literal,
then a nonempty run of non-dot characters (`[^.]+`, which necessarily ends
at the first dot), then a dot, then at least one further character
(`(.+)`, the rest of the string). -/
def subgraphAttemptAt (cs : List Char) : Option (String × String) :=
  if subgraphLiteral.isPrefixOf cs then
    let after := cs.drop subgraphLiteral.length
    let uuid := after.takeWhile (fun c => c ≠ '.')
    let past := after.drop uuid.length
    match uuid, past with
    | _ :: _, _dot :: s1 :: srest => some (String.mk uuid, String.mk (s1 :: srest))
    | _, _ => none
  else none

/-- Leftmost unanchored match of the regex: try each start position in
order, as a backtracking regex engine does. -/
def subgraphScan (cs : List Char) : Option (String × String) :=
  match cs with
  | [] => none
  | _ :: rest =>
    match subgraphAttemptAt cs with
    | some r => some r
    | none => subgraphScan rest

/-- `responseType.match(/\.invoke_send_rescheduling_proposal_to_invitee:([^.]+)\.(.+)/)`
returning the two capture groups `(uuid, stage)`. -/
def subgraphKeyMatch (key : String) : Option (String × String) :=
  subgraphScan key.toList

/-- JS truthiness of `data.message_analysis`. -/
def analysisTruthy (data : StatePayload) : Bool := strTruthy data.message_analysis

/-- The `Unknown` fallback user of the subgraph status initialiser. -/
def unknownUser : User :=
  { id := "", given_name := "Unknown", timezone := "UTC", avatar_url := "",
    preffered_working_hours := some (9, 17) }

/-- Initialise a `SubgraphMessageStatus` (source lines 831–851). -/
def initSubgraphStatus (uuid : String) (data : StatePayload) :
    SubgraphMessageStatus :=
  { uuid := uuid,
    toUser := firstSome
      [data.sent_message.map (fun m => m.to_user),
       data.received_message.map (fun m => m.to_user)] unknownUser,
    fromUser := firstSome
      [data.sent_message.map (fun m => m.from_user),
       data.received_message.map (fun m => m.from_user)] unknownUser,
    platform := firstTruthyStr
      [data.sent_message.map (fun m => m.platform_id),
       data.received_message.map (fun m => m.platform_id)] "slack",
    sent := none, received := none, analyzed := none }

/-- The new `subgraph_status` timeline item. -/
def subgraphItem (uuid stage : String) (data : StatePayload) (now : Nat) :
    TimelineItem :=
  { id := "subgraph_" ++ uuid ++ "_" ++ toString now, timestamp := now,
    type := TLType.subgraph_status,
    content := TLContent.subgraph uuid stage data,
    stateKey := none, messageId := none, responseType := none,
    subgraphUuid := some uuid }

/-- `findIndex`/update-or-append on `subgraph_status` items (source lines
877–905): refresh the first timeline item carrying this subgraph uuid, or
append a fresh one at the end (plain push, no loading-indicator removal). -/
def updateOrAppendSubgraph (uuid stage : String) (data : StatePayload)
    (now : Nat) (tl : List TimelineItem) : List TimelineItem :=
  match tl with
  | [] => [subgraphItem uuid stage data now]
  | it :: rest =>
    if it.type = TLType.subgraph_status ∧ it.subgraphUuid = some uuid then
      { it with timestamp := now,
                content := TLContent.subgraph uuid stage data } :: rest
    else it :: updateOrAppendSubgraph uuid stage data now rest

/-- `processSubgraphMessageResponse(data, responseType)` (source lines
820–907).  A `null` payload with a matching key crashes (see header). -/
def processSubgraphMessageResponse (v : StateVal) (responseType : String)
    (now : Nat) (st : ComponentState) : ComponentState :=
  match subgraphKeyMatch responseType with
  | none => st
  | some (uuid, stage) =>
    match v with
    | StateVal.null => { st with crashed := true }
    | StateVal.obj data =>
      let entry0 :=
        match lookupA st.subgraphMessages uuid with
        | some e => e
        | none => initSubgraphStatus uuid data
      let entry1 :=
        if stage = "send_message" then
          match data.sent_message with
          | some m => { entry0 with sent := some m }
          | none => entry0
        else if stage = "receive_message" then
          match data.received_message with
          | some m => { entry0 with received := some m }
          | none => entry0
        else if stage = "analyze_message" then
          if analysisTruthy data then { entry0 with analyzed := some data }
          else entry0
        else entry0
      let st1 :=
        { st with subgraphMessages := upsertA st.subgraphMessages uuid entry1 }
      if stage = "send_message" ∨ (stage = "analyze_message" ∧ analysisTruthy data) then
        { st1 with timeline := updateOrAppendSubgraph uuid stage data now st1.timeline }
      else st1

/-! ## The per-record reducer (bodies of the two read loops) -/

/-- `Object.keys(data).find(key => key.startsWith('$.'))`. -/
def findStateKey (data : Record) : Option String :=
  (data.fields.find? (fun kv => strStartsWith kv.1 "$.")).map (fun kv => kv.1)

/-- `data[stateKey]` for a key produced by `findStateKey` (total with a
`null` default; the key is always present when it was found). -/
def valueAtKey (data : Record) (k : String) : StateVal :=
  (lookupA data.fields k).getD StateVal.null

/-- A fresh `ai_message` timeline item for a chunk with message id `mid`
and content `txt`. -/
def newAiMessageItem (mid : Option String) (txt : String) (now : Nat) :
    TimelineItem :=
  { id := "ai_" ++ jsOptStr mid ++ "_" ++ toString now, timestamp := now,
    type := TLType.ai_message, content := TLContent.text txt,
    stateKey := none, messageId := mid,
    responseType := none, subgraphUuid := none }

/-- `updated[existingIndex].content + (data.content || "")`: string
concatenation onto an `ai_message` item's text content (the only content
shape such items ever carry). -/
def appendText (c : TLContent) (txt : String) : TLContent :=
  match c with
  | TLContent.text s => TLContent.text (s ++ txt)
  | c => c

/-- `findIndex` + in-place update of the first `ai_message` item whose
`messageId` equals the chunk's id; `none` when no such item exists
(`existingIndex < 0` in the source). -/
def updateFirstAi (mid : Option String) (txt : String) (now : Nat) :
    List TimelineItem → Option (List TimelineItem)
  | [] => none
  | it :: rest =>
    if it.type = TLType.ai_message ∧ it.messageId = mid then
      some ({ it with content := appendText it.content txt,
                      timestamp := now } :: rest)
    else (updateFirstAi mid txt now rest).map (fun tl => it :: tl)

/-- The `interrupt` timeline item. -/
def interruptItem (data : Record) (now : Nat) : TimelineItem :=
  { id := "interrupt_" ++ jsOptStr data.id ++ "_" ++ toString now,
    timestamp := now, type := TLType.interrupt,
    content := TLContent.record data, stateKey := none, messageId := none,
    responseType := none, subgraphUuid := none }

/-- The `loading` timeline item. -/
def loadingItem (data : Record) (now : Nat) : TimelineItem :=
  { id := "loading_" ++ toString now, timestamp := now, type := TLType.loading,
    content := TLContent.record data, stateKey := none, messageId := none,
    responseType := none, subgraphUuid := none }

/-- The `state_update` timeline item. -/
def stateUpdateItem (k : String) (v : StateVal) (now : Nat) : TimelineItem :=
  { id := "state_" ++ k ++ "_" ++ toString now, timestamp := now,
    type := TLType.state_update, content := TLContent.stateVal v,
    stateKey := some k, messageId := none, responseType := none,
    subgraphUuid := none }

/-- The `response` timeline item. -/
def responseItem (data : Record) (now : Nat) : TimelineItem :=
  { id := "response_" ++ jsOptStr data.type ++ "_" ++ toString now,
    timestamp := now, type := TLType.response,
    content := TLContent.record data, stateKey := none, messageId := none,
    responseType := data.type, subgraphUuid := none }

/-- The `AIMessageChunk` branch (source lines 1207–1244 for start, 1033–1072
for resume).  The resume variant additionally clears `isResuming` and
removes the last loading indicator before locating the message (and, when
appending a fresh message, goes through `addTimelineItem`, which removes a
loading indicator again). -/
def handleAIMessageChunkRecord (resume : Bool) (st : ComponentState)
    (data : Record) (now : Nat) : ComponentState :=
  let st := if data.finish_reason_stop then { st with waitingForNextState := true } else st
  let st := if resume then { st with isResuming := false } else st
  let txt := data.content.getD ""
  if resume then
    let t1 := removeLastLoadingIndicator st.timeline
    match updateFirstAi data.id txt now t1 with
    | some t2 => { st with timeline := t2 }
    | none =>
      { st with timeline := addTimelineItem t1 (newAiMessageItem data.id txt now) }
  else
    match updateFirstAi data.id txt now st.timeline with
    | some t2 => { st with timeline := t2 }
    | none =>
      { st with timeline := st.timeline ++ [newAiMessageItem data.id txt now] }

/-- The `interrupt` branch. -/
def handleInterruptRecord (st : ComponentState) (data : Record) (now : Nat) :
    ComponentState :=
  { st with currentInterrupt := some data,
            waitingForNextState := false,
            timeline := addTimelineItem st.timeline (interruptItem data now) }

/-- The `loading` branch. -/
def handleLoadingRecord (st : ComponentState) (data : Record) (now : Nat) :
    ComponentState :=
  { st with waitingForNextState := false,
            timeline := addTimelineItem st.timeline (loadingItem data now) }

/-- The regular state-update branch (source lines 1286–1305 / 1114–1133):
dedup against the closure-captured `snapshot`, mark the key seen, clear
`waitingForNextState`, add a timeline item unless the value is `null`, and
fold into the accumulated state. -/
def handleStateKeyRecord (snapshot : List String) (st : ComponentState)
    (k : String) (v : StateVal) (now : Nat) : ComponentState :=
  if k ∈ snapshot then st
  else
    let st := { st with seenStateKeys := insertSeen st.seenStateKeys k,
                        waitingForNextState := false }
    let st :=
      match v with
      | StateVal.null => st
      | v => { st with timeline := addTimelineItem st.timeline (stateUpdateItem k v now) }
    { st with accumulatedState := updateAccumulatedState k v st.accumulatedState }

/-- The response-object branch (`else if (data.type)`). -/
def handleResponseRecord (st : ComponentState) (data : Record) (now : Nat) :
    ComponentState :=
  { st with timeline := addTimelineItem st.timeline (responseItem data now),
            accumulatedState := updateAccumulatedStateFromResponse data st.accumulatedState }

/-- One iteration of the `for (const line of lines)` body after a successful
`JSON.parse`, shared by `handleStart` (`resume = false`) and `handleResume`
(`resume = true`); `snapshot` is the closure-captured `seenStateKeys` (see
the header comment). -/
def processRecord (resume : Bool) (snapshot : List String)
    (st : ComponentState) (data : Record) : ComponentState :=
  let now := st.clock
  let st := { st with clock := st.clock + 1 }
  if data.type = some "AIMessageChunk" then
    handleAIMessageChunkRecord resume st data now
  else if data.type = some "interrupt" then
    handleInterruptRecord st data now
  else if data.type = some "loading" then
    handleLoadingRecord st data now
  else
    match findStateKey data with
    | some k =>
      if k = "$.invoke_send_rescheduling_proposal_to_invitee" then
        processConversationResponse (valueAtKey data k) st
      else if strStartsWith k "$.invoke_send_rescheduling_proposal_to_invitee:" then
        processSubgraphMessageResponse (valueAtKey data k) k now st
      else
        handleStateKeyRecord snapshot st k (valueAtKey data k) now
    | none =>
      if strTruthy data.type then
        handleResponseRecord st data now
      else st

/-! ## Lines, chunks and streams -/

/-- One line of the stream: `JSON.parse` inside `try`/`catch` — a parse
failure (`parse line = none`) is logged to the console (outside the state
model) and the line is skipped. -/
def processLine (resume : Bool) (snapshot : List String)
    (parse : String → Option Record) (st : ComponentState) (line : String) :
    ComponentState :=
  match parse line with
  | none => st
  | some data => processRecord resume snapshot st data

/-- `for (const line of lines) { ... }`. -/
def processLines (resume : Bool) (snapshot : List String)
    (parse : String → Option Record) (st : ComponentState)
    (lines : List String) : ComponentState :=
  lines.foldl (processLine resume snapshot parse) st

/-- `chunk.split("\n").filter((line) => line.trim())`: split the decoded
text on the newline character and keep the lines whose `trim()` is truthy,
i.e. the lines containing at least one non-whitespace character. -/
def chunkLines (chunk : String) : List String :=
  ((splitOnNl chunk.toList).map String.mk).filter
    (fun line => line.toList.any (fun c => !c.isWhitespace))

/-- One decoded chunk delivered by `reader.read()`. -/
def processChunk (resume : Bool) (snapshot : List String)
    (parse : String → Option Record) (st : ComponentState) (chunk : String) :
    ComponentState :=
  processLines resume snapshot parse st (chunkLines chunk)

/-- The whole `while (true) { ... reader.read() ... }` loop over the decoded
chunks. -/
def processStream (resume : Bool) (snapshot : List String)
    (parse : String → Option Record) (st : ComponentState)
    (chunks : List String) : ComponentState :=
  chunks.foldl (processChunk resume snapshot parse) st

/-! ## The two session handlers -/

/-- The stream endpoint URL for a thread. -/
def streamUrl (threadId : String) : String :=
  "http://localhost:8000/api/v1/graphs/default/threads/" ++ threadId ++ "/stream"

/-- The `fetch` issued by `handleStart`: a POST with no body. -/
def startRequest (threadId : String) : HttpRequest :=
  { url := streamUrl threadId, method := "POST", body := none }

/-- The `fetch` issued by `handleResume`: a POST whose body is the JSON
object `{ type: "resume", value, id: currentInterrupt.id }`. -/
def resumeRequest (threadId : String) (value : String) (interruptId : Option String) :
    HttpRequest :=
  { url := streamUrl threadId, method := "POST",
    body := some { type := "resume", value := value, id := interruptId } }

/-- `handleStart` (source lines 1164–1331) over one session's stream:
reset all per-session state, capture the `seenStateKeys` snapshot held by
the running closure (the value from the render that created the handler —
the reset never reaches it), issue the POST, fold the stream, and on a
network failure fall into `catch`, which only sets `isStarted` back to
`false`.  Returns the final state and the request issued. -/
def handleStart (parse : String → Option Record) (st : ComponentState)
    (stream : NetworkStream) : ComponentState × Option HttpRequest :=
  let snapshot := st.seenStateKeys
  let st1 := { st with isStarted := true, timeline := [],
                       accumulatedState := emptyAccumulatedState,
                       seenStateKeys := [], waitingForNextState := false,
                       currentInterrupt := none, isResuming := false,
                       selectedInterruptOptions := [], subgraphMessages := [],
                       conversations := [], seenStateIds := [] }
  let st2 := processStream false snapshot parse st1 stream.chunks
  (if stream.fails then { st2 with isStarted := false } else st2,
   some (startRequest st.threadId))

/-- `handleResume(value)` (source lines 988–1162) over one session's stream:
a no-op returning immediately when no interrupt is pending; otherwise set
`isResuming`, record the chosen option under the interrupt's id, clear the
interrupt, issue the POST with the resume body, fold the stream; on a
network failure the `catch` restores the closure-captured interrupt, and
`finally` clears `isResuming`. -/
def handleResume (parse : String → Option Record) (st : ComponentState)
    (value : String) (stream : NetworkStream) :
    ComponentState × Option HttpRequest :=
  match st.currentInterrupt with
  | none => (st, none)
  | some intr =>
    let snapshot := st.seenStateKeys
    let st1 := { st with isResuming := true,
                         selectedInterruptOptions :=
                           upsertA st.selectedInterruptOptions (jsOptStr intr.id) value,
                         currentInterrupt := none }
    let st2 := processStream true snapshot parse st1 stream.chunks
    let st3 := if stream.fails then { st2 with currentInterrupt := some intr } else st2
    ({ st3 with isResuming := false },
     some (resumeRequest st.threadId value intr.id))

/-! ## Record classification (the spec's "classifies each record by shape") -/

/-- The shape classes a record can fall into, in the branch order of the
read loops: one of the three `type` discriminators handled specially, a
`$.`-prefixed key, any other truthy `type` (a response object), or
nothing. -/
inductive RecordClass where
  | aiMessageChunk
  | interruptRec
  | loadingRec
  | stateRec (key : String)
  | responseRec
  | unclassified
deriving DecidableEq, Repr

/-- Classification of a parsed record by its shape: the `type`
discriminator, or the first key starting with `"$."`. -/
def classify (data : Record) : RecordClass :=
  if data.type = some "AIMessageChunk" then RecordClass.aiMessageChunk
  else if data.type = some "interrupt" then RecordClass.interruptRec
  else if data.type = some "loading" then RecordClass.loadingRec
  else
    match findStateKey data with
    | some k => RecordClass.stateRec k
    | none =>
      if strTruthy data.type then RecordClass.responseRec
      else RecordClass.unclassified

/-- The `$.`-keyed branch of the reducer, split by which key arrived
(conversation key, subgraph key, or regular state key). -/
def dispatchStateKey (snapshot : List String) (st : ComponentState)
    (data : Record) (k : String) (now : Nat) : ComponentState :=
  if k = "$.invoke_send_rescheduling_proposal_to_invitee" then
    processConversationResponse (valueAtKey data k) st
  else if strStartsWith k "$.invoke_send_rescheduling_proposal_to_invitee:" then
    processSubgraphMessageResponse (valueAtKey data k) k now st
  else
    handleStateKeyRecord snapshot st k (valueAtKey data k) now

/-- Processing a record as dictated by its class. -/
def dispatchByClass (resume : Bool) (snapshot : List String)
    (st : ComponentState) (data : Record) : ComponentState :=
  let now := st.clock
  let st1 := { st with clock := st.clock + 1 }
  match classify data with
  | RecordClass.aiMessageChunk => handleAIMessageChunkRecord resume st1 data now
  | RecordClass.interruptRec => handleInterruptRecord st1 data now
  | RecordClass.loadingRec => handleLoadingRecord st1 data now
  | RecordClass.stateRec k => dispatchStateKey snapshot st1 data k now
  | RecordClass.responseRec => handleResponseRecord st1 data now
  | RecordClass.unclassified => st1

/-- Spec-side tokenizer, following the spec's words: the lines obtained by
splitting the decoded text on the newline character, dropping the
whitespace-only lines. -/
def specTokenize (chunk : String) : List String :=
  ((splitOnNl chunk.toList).map String.mk).filter
    (fun line => !(line.toList.all (fun c => c.isWhitespace)))

/-! ## Concrete demo inputs for witnesses and counterexamples -/

/-- A concrete user. -/
def demoUser : User :=
  { id := "user-1", given_name := "Ada", timezone := "UTC",
    avatar_url := "http://localhost/a.png", preffered_working_hours := some (9, 17) }

/-- A second concrete user. -/
def demoUser2 : User :=
  { id := "user-2", given_name := "Grace", timezone := "UTC",
    avatar_url := "http://localhost/g.png", preffered_working_hours := some (8, 16) }

/-- An empty payload object. -/
def emptyPayload : StatePayload :=
  { user := none, calendar := none, invitees := none, invitee_calendars := none,
    pending_rescheduling_proposals := none, conversations_by_invitee := none,
    sent_message := none, received_message := none, message_analysis := none }

/-- A record template with no fields set. -/
def emptyRecord : Record :=
  { type := none, id := none, content := none, finish_reason_stop := false,
    fields := [], user := none, calendar := none, invitees := none,
    invitee_calendars := none, pending_rescheduling_proposals := none,
    sent_message := none, received_message := none }

/-- A `$.load_user` state-update record carrying `demoUser`. -/
def demoLoadUserRecord : Record :=
  { emptyRecord with
    fields := [("$.load_user", StateVal.obj { emptyPayload with user := some demoUser })] }

/-- A `$.introduction` state-update record whose value is JSON `null`. -/
def demoNullStateRecord : Record :=
  { emptyRecord with fields := [("$.introduction", StateVal.null)] }

/-- An `AIMessageChunk` record. -/
def demoChunkRecord (mid : String) (txt : String) : Record :=
  { emptyRecord with type := some "AIMessageChunk", id := some mid,
                     content := some txt }

/-- An `interrupt` record. -/
def demoInterruptRecord : Record :=
  { emptyRecord with type := some "interrupt", id := some "int-1" }

/-- A concrete outgoing message from `demoUser` to `demoUser2`. -/
def demoOutgoing : OutgoingMessage :=
  { platform_id := "slack", content := "hello", sent_at := "2025-01-01T00:00:00Z",
    from_user := demoUser, to_user := demoUser2 }

/-- A subgraph `send_message` record for uuid `sg-1`. -/
def demoSubgraphSendRecord : Record :=
  { emptyRecord with
    fields := [("$.invoke_send_rescheduling_proposal_to_invitee:sg-1.send_message",
                StateVal.obj { emptyPayload with sent_message := some demoOutgoing })] }

/-- A line-level parser used by the concrete witnesses: the line text is an
opaque token naming one of the demo records (what `JSON.parse` yields for a
line is backend-defined; the reducer only sees the parsed value). -/
def demoParse : String → Option Record :=
  fun line =>
    if line = "loaduser" then some demoLoadUserRecord
    else if line = "nullstate" then some demoNullStateRecord
    else if line = "chunkA1" then some (demoChunkRecord "m1" "Hel")
    else if line = "chunkA2" then some (demoChunkRecord "m1" "lo")
    else if line = "chunkB1" then some (demoChunkRecord "m2" "Bye")
    else if line = "interrupt1" then some demoInterruptRecord
    else if line = "sgsend" then some demoSubgraphSendRecord
    else if line = "loading1" then some { emptyRecord with type := some "loading" }
    else none

/-- The fresh component state a first session starts from. -/
def demoInitial : ComponentState := initialComponentState "thread-1"

/-- A started state with a pending interrupt, as reached after a start
stream that delivered an interrupt. -/
def demoStartedState : ComponentState :=
  { demoInitial with isStarted := true,
                     currentInterrupt := some demoInterruptRecord }

/-! ## Frame lemmas: fields the read loops never write -/

theorem handleAIMessageChunkRecord_threadId (resume : Bool)
    (st : ComponentState) (data : Record) (now : Nat) :
    (handleAIMessageChunkRecord resume st data now).threadId = st.threadId := by
  simp only [handleAIMessageChunkRecord]
  repeat' split
  all_goals rfl

theorem handleAIMessageChunkRecord_isStarted (resume : Bool)
    (st : ComponentState) (data : Record) (now : Nat) :
    (handleAIMessageChunkRecord resume st data now).isStarted = st.isStarted := by
  simp only [handleAIMessageChunkRecord]
  repeat' split
  all_goals rfl

theorem handleStateKeyRecord_threadId (snapshot : List String)
    (st : ComponentState) (k : String) (v : StateVal) (now : Nat) :
    (handleStateKeyRecord snapshot st k v now).threadId = st.threadId := by
  simp only [handleStateKeyRecord]
  repeat' split
  all_goals rfl

theorem handleStateKeyRecord_isStarted (snapshot : List String)
    (st : ComponentState) (k : String) (v : StateVal) (now : Nat) :
    (handleStateKeyRecord snapshot st k v now).isStarted = st.isStarted := by
  simp only [handleStateKeyRecord]
  repeat' split
  all_goals rfl

theorem processConversationResponse_threadId (v : StateVal)
    (st : ComponentState) :
    (processConversationResponse v st).threadId = st.threadId := by
  simp only [processConversationResponse]
  repeat' split
  all_goals rfl

theorem processConversationResponse_isStarted (v : StateVal)
    (st : ComponentState) :
    (processConversationResponse v st).isStarted = st.isStarted := by
  simp only [processConversationResponse]
  repeat' split
  all_goals rfl

theorem processSubgraphMessageResponse_threadId (v : StateVal)
    (responseType : String) (now : Nat) (st : ComponentState) :
    (processSubgraphMessageResponse v responseType now st).threadId = st.threadId := by
  simp only [processSubgraphMessageResponse]
  repeat' split
  all_goals rfl

theorem processSubgraphMessageResponse_isStarted (v : StateVal)
    (responseType : String) (now : Nat) (st : ComponentState) :
    (processSubgraphMessageResponse v responseType now st).isStarted = st.isStarted := by
  simp only [processSubgraphMessageResponse]
  repeat' split
  all_goals rfl

theorem processRecord_threadId (resume : Bool) (snapshot : List String)
    (st : ComponentState) (data : Record) :
    (processRecord resume snapshot st data).threadId = st.threadId := by
  simp only [processRecord]
  repeat' split
  all_goals first
    | rfl
    | exact handleAIMessageChunkRecord_threadId ..
    | exact handleStateKeyRecord_threadId ..
    | exact processConversationResponse_threadId ..
    | exact processSubgraphMessageResponse_threadId ..

theorem processRecord_isStarted (resume : Bool) (snapshot : List String)
    (st : ComponentState) (data : Record) :
    (processRecord resume snapshot st data).isStarted = st.isStarted := by
  simp only [processRecord]
  repeat' split
  all_goals first
    | rfl
    | exact handleAIMessageChunkRecord_isStarted ..
    | exact handleStateKeyRecord_isStarted ..
    | exact processConversationResponse_isStarted ..
    | exact processSubgraphMessageResponse_isStarted ..

theorem processLines_threadId (resume : Bool) (snapshot : List String)
    (parse : String → Option Record) (lines : List String)
    (st : ComponentState) :
    (processLines resume snapshot parse st lines).threadId = st.threadId := by
  induction lines generalizing st with
  | nil => rfl
  | cons line rest ih =>
    rw [processLines, List.foldl_cons]
    rcases h : parse line with _ | data
    · rw [show processLine resume snapshot parse st line = st by rw [processLine, h]]
      exact ih st
    · rw [show processLine resume snapshot parse st line
            = processRecord resume snapshot st data by rw [processLine, h]]
      rw [show List.foldl (processLine resume snapshot parse)
            (processRecord resume snapshot st data) rest
          = processLines resume snapshot parse
            (processRecord resume snapshot st data) rest from rfl]
      rw [ih (processRecord resume snapshot st data)]
      exact processRecord_threadId ..

theorem processLines_isStarted (resume : Bool) (snapshot : List String)
    (parse : String → Option Record) (lines : List String)
    (st : ComponentState) :
    (processLines resume snapshot parse st lines).isStarted = st.isStarted := by
  induction lines generalizing st with
  | nil => rfl
  | cons line rest ih =>
    rw [processLines, List.foldl_cons]
    rcases h : parse line with _ | data
    · rw [show processLine resume snapshot parse st line = st by rw [processLine, h]]
      exact ih st
    · rw [show processLine resume snapshot parse st line
            = processRecord resume snapshot st data by rw [processLine, h]]
      rw [show List.foldl (processLine resume snapshot parse)
            (processRecord resume snapshot st data) rest
          = processLines resume snapshot parse
            (processRecord resume snapshot st data) rest from rfl]
      rw [ih (processRecord resume snapshot st data)]
      exact processRecord_isStarted ..

theorem processStream_threadId (resume : Bool) (snapshot : List String)
    (parse : String → Option Record) (chunks : List String)
    (st : ComponentState) :
    (processStream resume snapshot parse st chunks).threadId = st.threadId := by
  induction chunks generalizing st with
  | nil => rfl
  | cons c rest ih =>
    rw [processStream, List.foldl_cons]
    rw [show List.foldl (processChunk resume snapshot parse)
          (processChunk resume snapshot parse st c) rest
        = processStream resume snapshot parse
          (processChunk resume snapshot parse st c) rest from rfl]
    rw [ih (processChunk resume snapshot parse st c)]
    exact processLines_threadId ..

theorem processStream_isStarted (resume : Bool) (snapshot : List String)
    (parse : String → Option Record) (chunks : List String)
    (st : ComponentState) :
    (processStream resume snapshot parse st chunks).isStarted = st.isStarted := by
  induction chunks generalizing st with
  | nil => rfl
  | cons c rest ih =>
    rw [processStream, List.foldl_cons]
    rw [show List.foldl (processChunk resume snapshot parse)
          (processChunk resume snapshot parse st c) rest
        = processStream resume snapshot parse
          (processChunk resume snapshot parse st c) rest from rfl]
    rw [ih (processChunk resume snapshot parse st c)]
    exact processLines_isStarted ..

/-! ## Association-list lemmas -/

theorem lookupA_upsertA_self {α : Type} (l : List (String × α)) (k : String)
    (v : α) : lookupA (upsertA l k v) k = some v := by
  induction l with
  | nil => simp [upsertA, lookupA]
  | cons kv rest ih =>
    by_cases h : kv.1 = k
    · simp [upsertA, lookupA, h]
    · simp only [upsertA, if_neg h, lookupA, List.find?]
      rw [show (decide (kv.1 = k)) = false by simp [h]]
      exact ih

theorem lookupA_upsertA_other {α : Type} (l : List (String × α))
    (k u : String) (v : α) (h : u ≠ k) :
    lookupA (upsertA l k v) u = lookupA l u := by
  induction l with
  | nil =>
    simp only [upsertA, lookupA, List.find?]
    rw [show (decide ((k, v).1 = u)) = false by simp [Ne.symm h]]
  | cons kv rest ih =>
    by_cases hk : kv.1 = k
    · simp only [upsertA, if_pos hk, lookupA, List.find?]
      rw [show (decide ((k, v).1 = u)) = false by simp [Ne.symm h],
          show (decide (kv.1 = u)) = false by simp [hk, Ne.symm h]]
    · simp only [upsertA, if_neg hk, lookupA, List.find?]
      by_cases hu : kv.1 = u
      · rw [show (decide (kv.1 = u)) = true by simp [hu]]
      · rw [show (decide (kv.1 = u)) = false by simp [hu]]
        exact ih

/-! ## Claim theorems -/

/-- C1 (code bug): the claim says a single session de-duplicates regular
state-update records by state key, so the timeline never holds two
`state_update` items with the same `stateKey`.  The code's check
`!seenStateKeys.has(stateKey)` reads the closure-captured snapshot, which
`setSeenStateKeys` never updates during the running session, so in a fresh
`handleStart` session (captured snapshot empty) a repeated state key is
processed again: after a stream carrying the record
`{"$.load_user": {...}}` twice, the timeline holds two `state_update`
items with `stateKey = "$.load_user"`. -/
theorem c1_dedup_fails_on_duplicate_state_key :
    ((handleStart demoParse demoInitial
        { chunks := ["loaduser\nloaduser"], fails := false }).1.timeline.countP
      (fun it => it.type == TLType.state_update
        && it.stateKey == some "$.load_user")) = 2 := by
  decide

/-- C2: a line that fails to parse as JSON is skipped: it causes no change
to the component state (timeline, accumulated state, or anything else), and
processing continues with the remaining lines exactly as if the line were
absent. -/
theorem c2_parse_failure_skipped (resume : Bool) (snapshot : List String)
    (parse : String → Option Record) (st : ComponentState) (line : String)
    (l1 l2 : List String) (h : parse line = none) :
    processLine resume snapshot parse st line = st ∧
    processLines resume snapshot parse st (l1 ++ line :: l2) =
      processLines resume snapshot parse st (l1 ++ l2) := by
  have hskip : ∀ s : ComponentState, processLine resume snapshot parse s line = s := by
    intro s; rw [processLine, h]
  refine ⟨hskip st, ?_⟩
  rw [processLines, processLines, List.foldl_append, List.foldl_append,
      List.foldl_cons, hskip]

/-- C2 witness at a line the demo parser rejects. -/
theorem c2_parse_failure_skipped_witness :
    demoParse "garbage" = none ∧
    processLine false [] demoParse demoInitial "garbage" = demoInitial :=
  ⟨by decide,
   (c2_parse_failure_skipped false [] demoParse demoInitial "garbage" [] []
      (by decide)).1⟩

/-- C3 counterexample: the claim says every network failure during stream
processing (start or resume) resets the UI to its initial "not started"
state.  A failing resume stream refutes it at a concrete input: the session
ends with `isStarted` still `true` (and the interrupt restored), while the
initial state has `isStarted = false`. -/
theorem c3_resume_failure_keeps_ui_started :
    (handleResume demoParse demoStartedState "CONFIRMED"
        { chunks := [], fails := true }).1.isStarted = true ∧
    (handleResume demoParse demoStartedState "CONFIRMED"
        { chunks := [], fails := true }).1.currentInterrupt
      = some demoInterruptRecord ∧
    (initialComponentState "thread-1").isStarted = false := by
  refine ⟨by decide, by decide, by decide⟩

/-- C3 (amended): a network failure in the `handleStart` stream sets
`isStarted` back to `false` (the "not started" view); a network failure in
the `handleResume` stream does not reset the UI — it leaves `isStarted`
unchanged, restores the closure-captured pending interrupt, and clears the
resuming flag. -/
theorem c3_network_failure_amended (parse : String → Option Record)
    (st : ComponentState) (value : String) (stream1 stream2 : NetworkStream)
    (intr : Record) (hfail1 : stream1.fails = true)
    (hfail2 : stream2.fails = true) (h : st.currentInterrupt = some intr) :
    (handleStart parse st stream1).1.isStarted = false ∧
    (handleResume parse st value stream2).1.currentInterrupt = some intr ∧
    (handleResume parse st value stream2).1.isResuming = false ∧
    (handleResume parse st value stream2).1.isStarted = st.isStarted := by
  refine ⟨?_, ?_, ?_, ?_⟩
  · simp only [handleStart, hfail1, if_true]
  · simp only [handleResume, h, hfail2, if_true]
  · simp only [handleResume, h, hfail2, if_true]
  · simp only [handleResume, h, hfail2, if_true]
    exact processStream_isStarted ..

/-- C3 amended witness at a concrete failing start stream and failing
resume stream. -/
theorem c3_network_failure_amended_witness :
    (NetworkStream.mk [] true).fails = true ∧
    demoStartedState.currentInterrupt = some demoInterruptRecord ∧
    (handleStart demoParse demoStartedState (NetworkStream.mk ["loaduser"] true)).1.isStarted = false ∧
    (handleResume demoParse demoStartedState "CONFIRMED" (NetworkStream.mk [] true)).1.isStarted
      = demoStartedState.isStarted :=
  ⟨by decide, by decide,
   (c3_network_failure_amended demoParse demoStartedState "CONFIRMED"
      (NetworkStream.mk ["loaduser"] true) (NetworkStream.mk [] true)
      demoInterruptRecord (by decide) (by decide) (by decide)).1,
   (c3_network_failure_amended demoParse demoStartedState "CONFIRMED"
      (NetworkStream.mk ["loaduser"] true) (NetworkStream.mk [] true)
      demoInterruptRecord (by decide) (by decide) (by decide)).2.2.2⟩

/-- C6: both session handlers POST to
`/api/v1/graphs/default/threads/{threadId}/stream` with the same,
never-changing thread id; the resume request's body is the JSON object
`{type: "resume", value, id: <pending interrupt's id>}` and the start
request carries no body. -/
theorem c6_requests_same_thread_and_bodies (parse : String → Option Record)
    (st : ComponentState) (value : String) (stream1 stream2 : NetworkStream)
    (intr : Record) (h : st.currentInterrupt = some intr) :
    (handleStart parse st stream1).2
      = some { url := streamUrl st.threadId, method := "POST", body := none } ∧
    (handleResume parse st value stream2).2
      = some { url := streamUrl st.threadId, method := "POST",
               body := some { type := "resume", value := value, id := intr.id } } ∧
    (handleStart parse st stream1).1.threadId = st.threadId ∧
    (handleResume parse st value stream2).1.threadId = st.threadId := by
  refine ⟨rfl, ?_, ?_, ?_⟩
  · simp only [handleResume, h]
    rfl
  · simp only [handleStart]
    split
    · exact processStream_threadId ..
    · exact processStream_threadId ..
  · simp only [handleResume, h]
    split
    · exact processStream_threadId ..
    · exact processStream_threadId ..

/-- C6 witness at a concrete started state with a pending interrupt. -/
theorem c6_requests_same_thread_and_bodies_witness :
    demoStartedState.currentInterrupt = some demoInterruptRecord ∧
    (handleResume demoParse demoStartedState "CONFIRMED"
        (NetworkStream.mk [] false)).2
      = some { url := streamUrl "thread-1", method := "POST",
               body := some { type := "resume", value := "CONFIRMED",
                              id := some "int-1" } } :=
  ⟨by decide,
   (c6_requests_same_thread_and_bodies demoParse demoStartedState "CONFIRMED"
      (NetworkStream.mk [] false) (NetworkStream.mk [] false)
      demoInterruptRecord (by decide)).2.1⟩

/-- C9: a regular state-update record whose value under its state key is
JSON `null` and whose key is not in the captured seen-key snapshot marks
the key seen and still goes through the accumulated-state update (which
leaves the accumulated state unchanged for a `null` payload), but adds no
timeline item: the timeline is exactly unchanged (in particular no
loading-indicator removal happens). -/
theorem c9_null_state_update_adds_no_timeline_item (resume : Bool)
    (snapshot : List String) (st : ComponentState) (data : Record) (k : String)
    (h1 : data.type ≠ some "AIMessageChunk") (h2 : data.type ≠ some "interrupt")
    (h3 : data.type ≠ some "loading") (h4 : findStateKey data = some k)
    (h5 : k ≠ "$.invoke_send_rescheduling_proposal_to_invitee")
    (h6 : strStartsWith k "$.invoke_send_rescheduling_proposal_to_invitee:" = false)
    (h7 : k ∉ snapshot) (h8 : valueAtKey data k = StateVal.null) :
    processRecord resume snapshot st data =
      { st with seenStateKeys := insertSeen st.seenStateKeys k,
                waitingForNextState := false,
                accumulatedState :=
                  updateAccumulatedState k StateVal.null st.accumulatedState,
                clock := st.clock + 1 } ∧
    (processRecord resume snapshot st data).timeline = st.timeline ∧
    updateAccumulatedState k StateVal.null st.accumulatedState
      = st.accumulatedState := by
  have hmain : processRecord resume snapshot st data =
      { st with seenStateKeys := insertSeen st.seenStateKeys k,
                waitingForNextState := false,
                accumulatedState :=
                  updateAccumulatedState k StateVal.null st.accumulatedState,
                clock := st.clock + 1 } := by
    simp only [processRecord, handleStateKeyRecord, h4, h8, if_neg h1,
      if_neg h2, if_neg h3, if_neg h5, h6, Bool.false_eq_true, if_false,
      if_neg h7]
  refine ⟨hmain, by rw [hmain], rfl⟩

/-- C9 witness at the concrete `$.introduction: null` record on a fresh
session. -/
theorem c9_null_state_update_adds_no_timeline_item_witness :
    findStateKey demoNullStateRecord = some "$.introduction" ∧
    valueAtKey demoNullStateRecord "$.introduction" = StateVal.null ∧
    (processRecord false [] demoInitial demoNullStateRecord).timeline
      = demoInitial.timeline :=
  ⟨by decide, by decide,
   (c9_null_state_update_adds_no_timeline_item false [] demoInitial
      demoNullStateRecord "$.introduction" (by decide) (by decide) (by decide)
      (by decide) (by decide) (by decide) (by decide) (by decide)).2.1⟩

/-- C10: calling `handleResume` with no pending interrupt is a no-op: it
returns immediately, issues no HTTP request, and leaves the whole component
state (timeline, accumulated state, selected options, and the rest)
unchanged. -/
theorem c10_resume_without_interrupt_noop (parse : String → Option Record)
    (st : ComponentState) (value : String) (stream : NetworkStream)
    (h : st.currentInterrupt = none) :
    handleResume parse st value stream = (st, none) := by
  simp only [handleResume, h]

/-- C10 witness on the fresh initial state. -/
theorem c10_resume_without_interrupt_noop_witness :
    demoInitial.currentInterrupt = none ∧
    handleResume demoParse demoInitial "CONFIRMED"
      (NetworkStream.mk ["loaduser"] false) = (demoInitial, none) :=
  ⟨by decide,
   c10_resume_without_interrupt_noop demoParse demoInitial "CONFIRMED"
     (NetworkStream.mk ["loaduser"] false) (by decide)⟩

/-- Character-level fact behind the tokenizer filters: a string has a
non-whitespace character iff it is not whitespace-only. -/
theorem any_not_whitespace_eq (cs : List Char) :
    cs.any (fun c => !c.isWhitespace) = !(cs.all (fun c => c.isWhitespace)) := by
  induction cs with
  | nil => rfl
  | cons c rest ih =>
    simp only [List.any_cons, List.all_cons, Bool.not_and, ih]

/-- C5: the per-chunk processing of both read loops handles exactly the
lines obtained by splitting the decoded chunk on the newline character and
dropping whitespace-only lines, each surviving line being parsed and then
processed according to its shape class (`type` discriminator first, then
the first `$.`-prefixed key, then any other truthy `type`). -/
theorem c5_tokenization_and_classification (resume : Bool)
    (snapshot : List String) (parse : String → Option Record)
    (st : ComponentState) (chunk : String) :
    chunkLines chunk = specTokenize chunk ∧
    processChunk resume snapshot parse st chunk =
      (specTokenize chunk).foldl (processLine resume snapshot parse) st ∧
    ∀ (st2 : ComponentState) (data : Record),
      processRecord resume snapshot st2 data
        = dispatchByClass resume snapshot st2 data := by
  have htok : chunkLines chunk = specTokenize chunk := by
    rw [chunkLines, specTokenize]
    apply List.filter_congr
    intro line _
    exact any_not_whitespace_eq line.toList
  refine ⟨htok, by rw [processChunk, htok]; rfl, ?_⟩
  intro st2 data
  by_cases hA : data.type = some "AIMessageChunk"
  · simp [processRecord, dispatchByClass, classify, hA]
  by_cases hI : data.type = some "interrupt"
  · simp [processRecord, dispatchByClass, classify, hA, hI]
  by_cases hL : data.type = some "loading"
  · simp [processRecord, dispatchByClass, classify, hA, hI, hL]
  rcases hK : findStateKey data with _ | k
  · by_cases hT : strTruthy data.type = true
    · simp [processRecord, dispatchByClass, classify, hA, hI, hL, hK, hT]
    · simp [processRecord, dispatchByClass, classify, hA, hI, hL, hK, hT]
  · simp [processRecord, dispatchByClass, classify, dispatchStateKey,
      hA, hI, hL, hK]

/-- The entry the subgraph stage switch starts from: the stored entry for
this uuid, or the freshly initialised one. -/
def currentSubgraphEntry (st : ComponentState) (uuid : String)
    (p : StatePayload) : SubgraphMessageStatus :=
  match lookupA st.subgraphMessages uuid with
  | some e => e
  | none => initSubgraphStatus uuid p

/-- C7: a record whose key the subgraph regex matches as
`$.invoke_send_rescheduling_proposal_to_invitee:<uuid>.<stage>` updates
only the entry for that uuid: stage `send_message` sets its `sent` field,
`receive_message` its `received` field, `analyze_message` its `analyzed`
field, any other stage stores the entry unchanged (so a fresh entry has
all three unset); a key the regex does not match changes no state at
all. -/
theorem c7_subgraph_stage_updates (key uuid stage : String)
    (p : StatePayload) (st : ComponentState) (now : Nat)
    (hmatch : subgraphKeyMatch key = some (uuid, stage)) :
    (∀ u, u ≠ uuid →
      lookupA (processSubgraphMessageResponse (StateVal.obj p) key now
          st).subgraphMessages u
        = lookupA st.subgraphMessages u) ∧
    (∀ m, stage = "send_message" → p.sent_message = some m →
      lookupA (processSubgraphMessageResponse (StateVal.obj p) key now
          st).subgraphMessages uuid
        = some { currentSubgraphEntry st uuid p with sent := some m }) ∧
    (∀ m, stage = "receive_message" → p.received_message = some m →
      lookupA (processSubgraphMessageResponse (StateVal.obj p) key now
          st).subgraphMessages uuid
        = some { currentSubgraphEntry st uuid p with received := some m }) ∧
    (stage = "analyze_message" → analysisTruthy p = true →
      lookupA (processSubgraphMessageResponse (StateVal.obj p) key now
          st).subgraphMessages uuid
        = some { currentSubgraphEntry st uuid p with analyzed := some p }) ∧
    (stage ≠ "send_message" → stage ≠ "receive_message" →
     stage ≠ "analyze_message" →
      lookupA (processSubgraphMessageResponse (StateVal.obj p) key now
          st).subgraphMessages uuid
        = some (currentSubgraphEntry st uuid p)) ∧
    (lookupA st.subgraphMessages uuid = none →
      currentSubgraphEntry st uuid p = initSubgraphStatus uuid p ∧
      (initSubgraphStatus uuid p).sent = none ∧
      (initSubgraphStatus uuid p).received = none ∧
      (initSubgraphStatus uuid p).analyzed = none) ∧
    (∀ (key2 : String) (v : StateVal) (st2 : ComponentState) (now2 : Nat),
      subgraphKeyMatch key2 = none →
      processSubgraphMessageResponse v key2 now2 st2 = st2) := by
  have hsub : (processSubgraphMessageResponse (StateVal.obj p) key now
      st).subgraphMessages
    = upsertA st.subgraphMessages uuid
        (if stage = "send_message" then
          match p.sent_message with
          | some m => { currentSubgraphEntry st uuid p with sent := some m }
          | none => currentSubgraphEntry st uuid p
        else if stage = "receive_message" then
          match p.received_message with
          | some m => { currentSubgraphEntry st uuid p with received := some m }
          | none => currentSubgraphEntry st uuid p
        else if stage = "analyze_message" then
          if analysisTruthy p then
            { currentSubgraphEntry st uuid p with analyzed := some p }
          else currentSubgraphEntry st uuid p
        else currentSubgraphEntry st uuid p) := by
    simp only [processSubgraphMessageResponse, hmatch, currentSubgraphEntry]
    split
    · rfl
    · rfl
  refine ⟨?_, ?_, ?_, ?_, ?_, ?_, ?_⟩
  · intro u hu
    rw [hsub, lookupA_upsertA_other _ _ _ _ hu]
  · intro m hstage hm
    rw [hsub, hstage]
    simp only [if_pos rfl, hm]
    exact lookupA_upsertA_self ..
  · intro m hstage hm
    rw [hsub, hstage]
    simp only [if_neg (by decide : ¬("receive_message" = "send_message")),
      if_pos rfl, hm]
    exact lookupA_upsertA_self ..
  · intro hstage hm
    rw [hsub, hstage]
    simp only [if_neg (by decide : ¬("analyze_message" = "send_message")),
      if_neg (by decide : ¬("analyze_message" = "receive_message")),
      if_pos rfl, hm, if_true]
    exact lookupA_upsertA_self ..
  · intro hs hr ha
    rw [hsub]
    simp only [if_neg hs, if_neg hr, if_neg ha]
    exact lookupA_upsertA_self ..
  · intro hnone
    refine ⟨?_, rfl, rfl, rfl⟩
    rw [currentSubgraphEntry, hnone]
  · intro key2 v st2 now2 hnone
    simp only [processSubgraphMessageResponse, hnone]

/-! ## Loading-indicator counting (for C8) -/

/-- Number of `loading` items in a timeline. -/
def loadingCount (tl : List TimelineItem) : Nat :=
  tl.countP (fun it => it.type == TLType.loading)

theorem loadingCount_removeLast (tl : List TimelineItem) :
    loadingCount (removeLastLoadingIndicator tl) = loadingCount tl - 1 := by
  induction tl with
  | nil => rfl
  | cons item rest ih =>
    rw [removeLastLoadingIndicator]
    by_cases h : rest.any (fun it => it.type == TLType.loading) = true
    · rw [if_pos h]
      have hpos : 0 < loadingCount rest := by
        rw [loadingCount, List.countP_pos_iff]
        obtain ⟨a, ha, hp⟩ := List.any_eq_true.mp h
        exact ⟨a, ha, hp⟩
      simp only [loadingCount, List.countP_cons] at *
      cases hi : (item.type == TLType.loading) <;> simp [hi] <;> omega
    · rw [if_neg h]
      have hz : loadingCount rest = 0 := by
        rw [loadingCount, List.countP_eq_zero]
        intro a ha hpa
        exact h (List.any_eq_true.mpr ⟨a, ha, hpa⟩)
      by_cases hi : (item.type == TLType.loading) = true
      · rw [if_pos hi]
        simp only [loadingCount, List.countP_cons] at *
        simp [hi, hz]
      · rw [if_neg hi]
        simp only [Bool.not_eq_true] at hi
        simp only [loadingCount, List.countP_cons] at *
        simp [hi, hz]

theorem loadingCount_addTimelineItem (tl : List TimelineItem)
    (it : TimelineItem) :
    loadingCount (addTimelineItem tl it)
      = (loadingCount tl - 1) + (if it.type == TLType.loading then 1 else 0) := by
  have h := loadingCount_removeLast tl
  rw [addTimelineItem, loadingCount, List.countP_append]
  rw [show List.countP (fun it => it.type == TLType.loading)
        (removeLastLoadingIndicator tl) = loadingCount tl - 1 from h]
  simp [List.countP_cons]

theorem loadingCount_updateFirstAi (mid : Option String) (txt : String)
    (now : Nat) (tl tl2 : List TimelineItem)
    (h : updateFirstAi mid txt now tl = some tl2) :
    loadingCount tl2 = loadingCount tl := by
  induction tl generalizing tl2 with
  | nil => simp [updateFirstAi] at h
  | cons it rest ih =>
    rw [updateFirstAi] at h
    by_cases hc : it.type = TLType.ai_message ∧ it.messageId = mid
    · rw [if_pos hc] at h
      cases h
      simp [loadingCount, List.countP_cons]
    · rw [if_neg hc] at h
      obtain ⟨tl2h, h1, h2⟩ := Option.map_eq_some'.mp h
      subst h2
      have hih := ih tl2h h1
      simp only [loadingCount, List.countP_cons] at *
      rw [hih]

theorem loadingCount_updateOrAppendSubgraph (uuid stage : String)
    (data : StatePayload) (now : Nat) (tl : List TimelineItem) :
    loadingCount (updateOrAppendSubgraph uuid stage data now tl)
      = loadingCount tl := by
  induction tl with
  | nil => rfl
  | cons it rest ih =>
    rw [updateOrAppendSubgraph]
    by_cases hc : it.type = TLType.subgraph_status ∧ it.subgraphUuid = some uuid
    · rw [if_pos hc]
      simp [loadingCount, List.countP_cons]
    · rw [if_neg hc]
      simp only [loadingCount, List.countP_cons] at *
      rw [ih]

theorem processConversationResponse_timeline (v : StateVal)
    (st : ComponentState) :
    (processConversationResponse v st).timeline = st.timeline := by
  simp only [processConversationResponse]
  repeat' split
  all_goals rfl

theorem loadingCount_processSubgraphMessageResponse (v : StateVal)
    (responseType : String) (now : Nat) (st : ComponentState) :
    loadingCount (processSubgraphMessageResponse v responseType now st).timeline
      = loadingCount st.timeline := by
  simp only [processSubgraphMessageResponse]
  repeat' split
  all_goals first
    | rfl
    | exact loadingCount_updateOrAppendSubgraph ..

/-- The timeline produced by the AI-chunk branch, separated from the
unrelated flag writes. -/
theorem handleAIMessageChunkRecord_timeline (resume : Bool)
    (st : ComponentState) (data : Record) (now : Nat) :
    (handleAIMessageChunkRecord resume st data now).timeline
      = if resume then
          (match updateFirstAi data.id (data.content.getD "") now
              (removeLastLoadingIndicator st.timeline) with
           | some t2 => t2
           | none =>
             addTimelineItem (removeLastLoadingIndicator st.timeline)
               (newAiMessageItem data.id (data.content.getD "") now))
        else
          (match updateFirstAi data.id (data.content.getD "") now st.timeline with
           | some t2 => t2
           | none =>
             st.timeline ++ [newAiMessageItem data.id (data.content.getD "") now]) := by
  cases hf : data.finish_reason_stop <;> cases hr : resume <;>
    simp only [handleAIMessageChunkRecord, hf, hr, if_true, if_false,
      Bool.false_eq_true, ite_false, ite_true] <;>
    (repeat' split) <;> rfl

/-- The timeline produced by the regular state-update branch. -/
theorem handleStateKeyRecord_timeline (snapshot : List String)
    (st : ComponentState) (k : String) (v : StateVal) (now : Nat) :
    (handleStateKeyRecord snapshot st k v now).timeline
      = if k ∈ snapshot then st.timeline
        else
          match v with
          | StateVal.null => st.timeline
          | v => addTimelineItem st.timeline (stateUpdateItem k v now) := by
  simp only [handleStateKeyRecord]
  repeat' split
  all_goals rfl

theorem loading_le_handleAI (resume : Bool) (st : ComponentState)
    (data : Record) (now : Nat) (h : loadingCount st.timeline ≤ 1) :
    loadingCount (handleAIMessageChunkRecord resume st data now).timeline ≤ 1 := by
  rw [handleAIMessageChunkRecord_timeline]
  have hrll := loadingCount_removeLast st.timeline
  split
  · split
    · next t2 heq =>
      rw [loadingCount_updateFirstAi _ _ _ _ _ heq]
      omega
    · rw [loadingCount_addTimelineItem]
      have : ((newAiMessageItem data.id (data.content.getD "") now).type
          == TLType.loading) = false := by simp [newAiMessageItem]
      rw [this]
      simp only [if_false, Bool.false_eq_true]
      omega
  · split
    · next t2 heq =>
      rw [loadingCount_updateFirstAi _ _ _ _ _ heq]
      exact h
    · rw [loadingCount, List.countP_append, ← loadingCount]
      have : List.countP (fun it => it.type == TLType.loading)
          [newAiMessageItem data.id (data.content.getD "") now] = 0 := by
        simp [List.countP_cons, newAiMessageItem]
      rw [this]
      omega

theorem processRecord_loading_le (resume : Bool) (snapshot : List String)
    (st : ComponentState) (data : Record)
    (h : loadingCount st.timeline ≤ 1) :
    loadingCount (processRecord resume snapshot st data).timeline ≤ 1 := by
  have hclock : loadingCount ({ st with clock := st.clock + 1 } :
      ComponentState).timeline ≤ 1 := h
  simp only [processRecord]
  split
  · exact loading_le_handleAI _ _ _ _ hclock
  split
  · simp only [handleInterruptRecord, loadingCount_addTimelineItem]
    have : ((interruptItem data st.clock).type == TLType.loading) = false := by
      simp [interruptItem]
    rw [this]
    simp only [if_false, Bool.false_eq_true]
    omega
  split
  · simp only [handleLoadingRecord, loadingCount_addTimelineItem]
    have : ((loadingItem data st.clock).type == TLType.loading) = true := by
      simp [loadingItem]
    rw [this]
    simp only [if_true]
    omega
  split
  · next k _heq =>
    split
    · rw [processConversationResponse_timeline]
      exact hclock
    · split
      · rw [loadingCount_processSubgraphMessageResponse]
        exact hclock
      · rw [handleStateKeyRecord_timeline]
        split
        · exact hclock
        · split
          · exact hclock
          · next v2 hne =>
            rw [loadingCount_addTimelineItem]
            have hsu : ((stateUpdateItem k (valueAtKey data k) st.clock).type
                == TLType.loading) = false := by
              simp [stateUpdateItem]
            rw [hsu]
            simp only [if_false, Bool.false_eq_true]
            omega
  · split
    · simp only [handleResponseRecord, loadingCount_addTimelineItem]
      have : ((responseItem data st.clock).type == TLType.loading) = false := by
        simp [responseItem]
      rw [this]
      simp only [if_false, Bool.false_eq_true]
      omega
    · exact hclock

theorem processLine_loading_le (resume : Bool) (snapshot : List String)
    (parse : String → Option Record) (st : ComponentState) (line : String)
    (h : loadingCount st.timeline ≤ 1) :
    loadingCount (processLine resume snapshot parse st line).timeline ≤ 1 := by
  rw [processLine]
  rcases parse line with _ | data
  · exact h
  · exact processRecord_loading_le _ _ _ _ h

theorem processLines_loading_le (resume : Bool) (snapshot : List String)
    (parse : String → Option Record) (lines : List String)
    (st : ComponentState) (h : loadingCount st.timeline ≤ 1) :
    loadingCount (processLines resume snapshot parse st lines).timeline ≤ 1 := by
  induction lines generalizing st with
  | nil => exact h
  | cons line rest ih =>
    rw [processLines, List.foldl_cons]
    exact ih _ (processLine_loading_le _ _ _ _ _ h)

theorem processStream_loading_le (resume : Bool) (snapshot : List String)
    (parse : String → Option Record) (chunks : List String)
    (st : ComponentState) (h : loadingCount st.timeline ≤ 1) :
    loadingCount (processStream resume snapshot parse st chunks).timeline ≤ 1 := by
  induction chunks generalizing st with
  | nil => exact h
  | cons c rest ih =>
    rw [processStream, List.foldl_cons]
    exact ih _ (processLines_loading_le _ _ _ _ _ h)

/-- C8: starting from an empty timeline, at most one `loading` item is ever
in the timeline: every record's processing preserves the bound (the only
branch that appends a loading item goes through `addTimelineItem`, which
first removes the last loading indicator), so the invariant holds after
every record of every stream. -/
theorem c8_at_most_one_loading_item (resume : Bool) (snapshot : List String)
    (parse : String → Option Record) (chunks : List String)
    (st0 : ComponentState) (h0 : st0.timeline = []) :
    loadingCount (processStream resume snapshot parse st0 chunks).timeline ≤ 1 ∧
    ∀ (st : ComponentState) (data : Record), loadingCount st.timeline ≤ 1 →
      loadingCount (processRecord resume snapshot st data).timeline ≤ 1 := by
  refine ⟨?_, fun st data h => processRecord_loading_le _ _ _ _ h⟩
  apply processStream_loading_le
  rw [h0]
  decide

/-- C8 witness: a concrete fresh session whose stream carries two loading
records and then more content. -/
theorem c8_at_most_one_loading_item_witness :
    demoInitial.timeline = [] ∧
    loadingCount (processStream false [] demoParse demoInitial
      ["loading1\nloading1", "loaduser\nloading1\nchunkA1"]).timeline ≤ 1 :=
  ⟨by decide,
   (c8_at_most_one_loading_item false [] demoParse
      ["loading1\nloading1", "loaduser\nloading1\nchunkA1"] demoInitial
      (by decide)).1⟩

/-! ## AI-message grouping (for C4) -/

/-- Record-level fold of one session's parsed records. -/
def processRecords (resume : Bool) (snapshot : List String)
    (st : ComponentState) (rs : List Record) : ComponentState :=
  rs.foldl (processRecord resume snapshot) st

/-- The timeline items the `findIndex` of the chunk branch matches:
`ai_message` items carrying this message id. -/
def isAiWithId (m : Option String) (it : TimelineItem) : Bool :=
  it.type == TLType.ai_message && it.messageId == m

/-- The `ai_message` items of a timeline carrying message id `m`. -/
def aiItems (m : Option String) (tl : List TimelineItem) : List TimelineItem :=
  tl.filter (isAiWithId m)

/-- An `AIMessageChunk` record carrying message id `m`. -/
def isChunkWithId (m : Option String) (r : Record) : Bool :=
  r.type == some "AIMessageChunk" && r.id == m

/-- The contents (`data.content || ""`) of the chunks with id `m`, in
arrival order. -/
def chunkTexts (m : Option String) (rs : List Record) : List String :=
  rs.filterMap
    (fun r => if isChunkWithId m r then some (r.content.getD "") else none)

/-- Concatenation of a list of strings in order. -/
def concatAll : List String → String
  | [] => ""
  | s :: rest => s ++ concatAll rest

/-- What the `ai_message` contents for one id must look like after some
chunk contents `cs` have arrived: nothing when none arrived, exactly one
text holding their concatenation otherwise. -/
def contentRep (cs : List String) : List TLContent :=
  if cs = [] then [] else [TLContent.text (concatAll cs)]

theorem concatAll_snoc (cs : List String) (txt : String) :
    concatAll (cs ++ [txt]) = concatAll cs ++ txt := by
  induction cs with
  | nil =>
    show concatAll [txt] = "" ++ txt
    rw [concatAll, concatAll, String.append_empty, String.empty_append]
  | cons s rest ih =>
    show s ++ concatAll (rest ++ [txt]) = (s ++ concatAll rest) ++ txt
    rw [ih, String.append_assoc]

theorem isAiWithId_iff (m : Option String) (it : TimelineItem) :
    isAiWithId m it = true ↔ (it.type = TLType.ai_message ∧ it.messageId = m) := by
  simp [isAiWithId]

theorem aiItems_nil (m : Option String) : aiItems m [] = [] := rfl

theorem aiItems_cons (m : Option String) (it : TimelineItem)
    (tl : List TimelineItem) :
    aiItems m (it :: tl)
      = if isAiWithId m it then it :: aiItems m tl else aiItems m tl := by
  rw [aiItems, List.filter_cons]
  split <;> rfl

theorem aiItems_append (m : Option String) (t1 t2 : List TimelineItem) :
    aiItems m (t1 ++ t2) = aiItems m t1 ++ aiItems m t2 := by
  rw [aiItems, List.filter_append]
  rfl

theorem aiItems_removeLast (m : Option String) (tl : List TimelineItem) :
    aiItems m (removeLastLoadingIndicator tl) = aiItems m tl := by
  induction tl with
  | nil => rfl
  | cons item rest ih =>
    rw [removeLastLoadingIndicator]
    by_cases h : rest.any (fun it => it.type == TLType.loading) = true
    · rw [if_pos h, aiItems_cons, aiItems_cons, ih]
    · rw [if_neg h]
      by_cases hi : (item.type == TLType.loading) = true
      · rw [if_pos hi]
        have hfalse : isAiWithId m item = false := by
          simp only [beq_iff_eq] at hi
          simp [isAiWithId, hi]
        rw [aiItems_cons, hfalse]
        simp
      · rw [if_neg hi]

theorem aiItems_updateOrAppendSubgraph (m : Option String) (uuid stage : String)
    (data : StatePayload) (now : Nat) (tl : List TimelineItem) :
    aiItems m (updateOrAppendSubgraph uuid stage data now tl) = aiItems m tl := by
  induction tl with
  | nil =>
    rw [updateOrAppendSubgraph]
    have : isAiWithId m (subgraphItem uuid stage data now) = false := by
      simp [isAiWithId, subgraphItem]
    rw [aiItems_cons, this]
    simp [aiItems_nil]
  | cons it rest ih =>
    rw [updateOrAppendSubgraph]
    by_cases hc : it.type = TLType.subgraph_status ∧ it.subgraphUuid = some uuid
    · rw [if_pos hc]
      have h1 : isAiWithId m it = false := by
        simp [isAiWithId, hc.1]
      have h2 : isAiWithId m ({ it with timestamp := now, content := TLContent.subgraph uuid stage data }) = false := by
        simp [isAiWithId, hc.1]
      rw [aiItems_cons, aiItems_cons, h1, h2]
      simp
    · rw [if_neg hc, aiItems_cons, aiItems_cons, ih]

theorem aiItems_processSubgraph (m : Option String) (v : StateVal)
    (responseType : String) (now : Nat) (st : ComponentState) :
    aiItems m (processSubgraphMessageResponse v responseType now st).timeline
      = aiItems m st.timeline := by
  simp only [processSubgraphMessageResponse]
  repeat' split
  all_goals first
    | rfl
    | exact aiItems_updateOrAppendSubgraph ..

theorem updateFirstAi_none_iff (mid : Option String) (txt : String) (now : Nat)
    (tl : List TimelineItem) :
    updateFirstAi mid txt now tl = none ↔ aiItems mid tl = [] := by
  induction tl with
  | nil => simp [updateFirstAi, aiItems_nil]
  | cons it rest ih =>
    rw [updateFirstAi, aiItems_cons]
    by_cases hc : it.type = TLType.ai_message ∧ it.messageId = mid
    · rw [if_pos hc]
      have : isAiWithId mid it = true := (isAiWithId_iff ..).mpr hc
      rw [this]
      simp
    · rw [if_neg hc]
      have : isAiWithId mid it = false := by
        cases hb : isAiWithId mid it
        · rfl
        · exact absurd ((isAiWithId_iff ..).mp hb) hc
      rw [this]
      simp only [if_false, Bool.false_eq_true, Option.map_eq_none']
      exact ih

theorem updateFirstAi_other (mid m2 : Option String) (txt : String) (now : Nat)
    (tl tl2 : List TimelineItem) (hne : m2 ≠ mid)
    (h : updateFirstAi mid txt now tl = some tl2) :
    aiItems m2 tl2 = aiItems m2 tl := by
  induction tl generalizing tl2 with
  | nil => simp [updateFirstAi] at h
  | cons it rest ih =>
    rw [updateFirstAi] at h
    by_cases hc : it.type = TLType.ai_message ∧ it.messageId = mid
    · rw [if_pos hc] at h
      cases h
      have h1 : isAiWithId m2 it = false := by
        simp [isAiWithId, hc.2, Ne.symm hne]
      have h2 : isAiWithId m2 { it with
          content := appendText it.content txt, timestamp := now } = false := by
        simp [isAiWithId, hc.2, Ne.symm hne]
      rw [aiItems_cons, aiItems_cons, h1, h2]
      simp
    · rw [if_neg hc] at h
      obtain ⟨tl2h, h1, h2⟩ := Option.map_eq_some'.mp h
      subst h2
      rw [aiItems_cons, aiItems_cons, ih tl2h h1]

theorem updateFirstAi_single (mid : Option String) (txt : String) (now : Nat)
    (tl tl2 : List TimelineItem) (a : TimelineItem)
    (ha : aiItems mid tl = [a]) (h : updateFirstAi mid txt now tl = some tl2) :
    aiItems mid tl2
      = [{ a with content := appendText a.content txt, timestamp := now }] := by
  induction tl generalizing tl2 with
  | nil => simp [updateFirstAi] at h
  | cons it rest ih =>
    rw [updateFirstAi] at h
    by_cases hc : it.type = TLType.ai_message ∧ it.messageId = mid
    · rw [if_pos hc] at h
      cases h
      have hit : isAiWithId mid it = true := (isAiWithId_iff ..).mpr hc
      rw [aiItems_cons, hit] at ha
      simp only [if_true, List.cons.injEq] at ha
      obtain ⟨hia, hrest⟩ := ha
      subst hia
      have hupd : isAiWithId mid { it with
          content := appendText it.content txt, timestamp := now } = true := by
        simp [isAiWithId, hc.1, hc.2]
      rw [aiItems_cons, hupd]
      simp [hrest]
    · rw [if_neg hc] at h
      obtain ⟨tl2h, h1, h2⟩ := Option.map_eq_some'.mp h
      subst h2
      have hfalse : isAiWithId mid it = false := by
        cases hb : isAiWithId mid it
        · rfl
        · exact absurd ((isAiWithId_iff ..).mp hb) hc
      rw [aiItems_cons, hfalse] at ha
      simp only [if_false, Bool.false_eq_true] at ha
      rw [aiItems_cons, hfalse]
      simp only [if_false, Bool.false_eq_true]
      exact ih tl2h ha h1

theorem contentRep_ne_nil (cs : List String) (h : cs ≠ []) :
    contentRep cs = [TLContent.text (concatAll cs)] := by
  rw [contentRep, if_neg h]

theorem contentRep_eq_nil_iff (cs : List String) :
    contentRep cs = [] ↔ cs = [] := by
  by_cases h : cs = [] <;> simp [contentRep, h]

theorem map_content_singleton (l : List TimelineItem) (c : TLContent)
    (h : l.map (fun it => it.content) = [c]) :
    ∃ a, l = [a] ∧ a.content = c := by
  cases l with
  | nil => simp at h
  | cons a rest =>
    cases rest with
    | nil =>
      simp only [List.map_cons, List.map_nil, List.cons.injEq, and_true] at h
      exact ⟨a, rfl, h⟩
    | cons b r => simp at h

/-- Effect of one `AIMessageChunk` record on the `ai_message` items carrying
its id: the single existing item gets the chunk's content appended, or a
fresh item holding the chunk's content is created. -/
theorem aiItems_handleAIChunk (resume : Bool) (st : ComponentState)
    (r : Record) (now : Nat) (cs : List String)
    (hinv : (aiItems r.id st.timeline).map (fun it => it.content) = contentRep cs) :
    (aiItems r.id (handleAIMessageChunkRecord resume st r now).timeline).map
        (fun it => it.content)
      = contentRep (cs ++ [r.content.getD ""]) := by
  have hnew : isAiWithId r.id
      (newAiMessageItem r.id (r.content.getD "") now) = true := by
    simp [isAiWithId, newAiMessageItem]
  rw [handleAIMessageChunkRecord_timeline]
  have hsnoc : cs ++ [r.content.getD ""] ≠ [] := by simp
  rw [contentRep_ne_nil _ hsnoc, concatAll_snoc]
  split
  · split
    · next t2 heq =>
      by_cases hcs : cs = []
      · subst hcs
        rw [show contentRep ([] : List String) = [] from rfl] at hinv
        have hempty : aiItems r.id st.timeline = [] := List.map_eq_nil_iff.mp hinv
        have hn : updateFirstAi r.id (r.content.getD "") now
            (removeLastLoadingIndicator st.timeline) = none :=
          (updateFirstAi_none_iff ..).mpr
            (by rw [aiItems_removeLast]; exact hempty)
        rw [hn] at heq
        exact Option.noConfusion heq
      · rw [contentRep_ne_nil _ hcs] at hinv
        obtain ⟨a, ha, hac⟩ := map_content_singleton _ _ hinv
        have ha2 : aiItems r.id (removeLastLoadingIndicator st.timeline) = [a] := by
          rw [aiItems_removeLast]
          exact ha
        rw [updateFirstAi_single _ _ _ _ _ _ ha2 heq]
        simp only [List.map_cons, List.map_nil]
        rw [hac]
        rfl
    · next heq =>
      have hempty : aiItems r.id st.timeline = [] := by
        have := (updateFirstAi_none_iff ..).mp heq
        rw [aiItems_removeLast] at this
        exact this
      have hcs : cs = [] := by
        rw [hempty] at hinv
        exact (contentRep_eq_nil_iff cs).mp hinv.symm
      subst hcs
      rw [addTimelineItem, aiItems_append, aiItems_removeLast,
        aiItems_removeLast, hempty, aiItems_cons, hnew]
      simp [newAiMessageItem, concatAll, String.empty_append, aiItems_nil]
  · split
    · next t2 heq =>
      by_cases hcs : cs = []
      · subst hcs
        rw [show contentRep ([] : List String) = [] from rfl] at hinv
        have hempty : aiItems r.id st.timeline = [] := List.map_eq_nil_iff.mp hinv
        have hn : updateFirstAi r.id (r.content.getD "") now st.timeline = none :=
          (updateFirstAi_none_iff ..).mpr hempty
        rw [hn] at heq
        exact Option.noConfusion heq
      · rw [contentRep_ne_nil _ hcs] at hinv
        obtain ⟨a, ha, hac⟩ := map_content_singleton _ _ hinv
        rw [updateFirstAi_single _ _ _ _ _ _ ha heq]
        simp only [List.map_cons, List.map_nil]
        rw [hac]
        rfl
    · next heq =>
      have hempty : aiItems r.id st.timeline = [] :=
        (updateFirstAi_none_iff ..).mp heq
      have hcs : cs = [] := by
        rw [hempty] at hinv
        exact (contentRep_eq_nil_iff cs).mp hinv.symm
      subst hcs
      rw [aiItems_append, hempty, aiItems_cons, hnew]
      simp [newAiMessageItem, concatAll, String.empty_append, aiItems_nil]

/-- A record that is not an `AIMessageChunk` with id `m` leaves the
`ai_message` items carrying `m` untouched. -/
theorem aiItems_processRecord_preserved (resume : Bool)
    (snapshot : List String) (st : ComponentState) (r : Record)
    (m : Option String) (h : isChunkWithId m r = false) :
    aiItems m (processRecord resume snapshot st r).timeline
      = aiItems m st.timeline := by
  simp only [processRecord]
  split
  · next hty =>
    have hidne : (r.id == m) = false := by
      cases hb : (r.id == m)
      · rfl
      · rw [isChunkWithId, hty, hb] at h
        simp at h
    have hne : m ≠ r.id := by
      intro he
      rw [he] at hidne
      simp at hidne
    have hnewf : isAiWithId m
        (newAiMessageItem r.id (r.content.getD "") st.clock) = false := by
      simp only [isAiWithId, newAiMessageItem]
      simp [hidne]
    rw [handleAIMessageChunkRecord_timeline]
    split
    · split
      · next t2 heq =>
        rw [updateFirstAi_other _ _ _ _ _ _ hne heq, aiItems_removeLast]
      · rw [addTimelineItem, aiItems_append, aiItems_removeLast,
          aiItems_removeLast, aiItems_cons, hnewf]
        simp [aiItems_nil]
    · split
      · next t2 heq =>
        rw [updateFirstAi_other _ _ _ _ _ _ hne heq]
      · rw [aiItems_append, aiItems_cons, hnewf]
        simp [aiItems_nil]
  · split
    · simp only [handleInterruptRecord]
      rw [addTimelineItem, aiItems_append, aiItems_removeLast]
      have hi : isAiWithId m (interruptItem r st.clock) = false := by
        simp [isAiWithId, interruptItem]
      rw [aiItems_cons, hi]
      simp [aiItems_nil]
    · split
      · simp only [handleLoadingRecord]
        rw [addTimelineItem, aiItems_append, aiItems_removeLast]
        have hi : isAiWithId m (loadingItem r st.clock) = false := by
          simp [isAiWithId, loadingItem]
        rw [aiItems_cons, hi]
        simp [aiItems_nil]
      · split
        · next k _heq =>
          split
          · rw [processConversationResponse_timeline]
          · split
            · exact aiItems_processSubgraph ..
            · rw [handleStateKeyRecord_timeline]
              split
              · rfl
              · split
                · rfl
                · next v2 hne2 =>
                  rw [addTimelineItem, aiItems_append, aiItems_removeLast]
                  have hi : isAiWithId m
                      (stateUpdateItem k (valueAtKey r k) st.clock) = false := by
                    simp [isAiWithId, stateUpdateItem]
                  rw [aiItems_cons, hi]
                  simp [aiItems_nil]
        · split
          · simp only [handleResponseRecord]
            rw [addTimelineItem, aiItems_append, aiItems_removeLast]
            have hi : isAiWithId m (responseItem r st.clock) = false := by
              simp [isAiWithId, responseItem]
            rw [aiItems_cons, hi]
            simp [aiItems_nil]
          · rfl

theorem chunkTexts_cons (m : Option String) (r : Record) (rs : List Record) :
    chunkTexts m (r :: rs)
      = (if isChunkWithId m r then [r.content.getD ""] else [])
          ++ chunkTexts m rs := by
  by_cases h : isChunkWithId m r = true <;>
    simp [chunkTexts, List.filterMap_cons, h]

theorem chunkTexts_eq_nil_iff (m : Option String) (rs : List Record) :
    chunkTexts m rs = [] ↔ rs.any (isChunkWithId m) = false := by
  induction rs with
  | nil => simp [chunkTexts]
  | cons r rest ih =>
    rw [chunkTexts_cons, List.any_cons]
    by_cases h : isChunkWithId m r = true <;> simp [h, ih]

theorem processLines_eq_processRecords (resume : Bool) (snapshot : List String)
    (parse : String → Option Record) (lines : List String)
    (st : ComponentState) :
    processLines resume snapshot parse st lines
      = processRecords resume snapshot st (lines.filterMap parse) := by
  induction lines generalizing st with
  | nil => rfl
  | cons line rest ih =>
    rw [processLines, List.foldl_cons, List.filterMap_cons]
    cases hp : parse line with
    | none =>
      rw [show processLine resume snapshot parse st line = st by
        rw [processLine, hp]]
      exact ih st
    | some data =>
      rw [show processLine resume snapshot parse st line
          = processRecord resume snapshot st data by rw [processLine, hp]]
      exact ih (processRecord resume snapshot st data)

theorem c4_fold (resume : Bool) (snapshot : List String) (m : Option String)
    (rs : List Record) :
    ∀ (st : ComponentState) (cs : List String),
    (aiItems m st.timeline).map (fun it => it.content) = contentRep cs →
    (aiItems m (processRecords resume snapshot st rs).timeline).map
        (fun it => it.content)
      = contentRep (cs ++ chunkTexts m rs) := by
  induction rs with
  | nil =>
    intro st cs hinv
    simpa [processRecords, chunkTexts] using hinv
  | cons r rest ih =>
    intro st cs hinv
    rw [show processRecords resume snapshot st (r :: rest)
        = processRecords resume snapshot
            (processRecord resume snapshot st r) rest from rfl]
    rw [chunkTexts_cons]
    by_cases hc : isChunkWithId m r = true
    · have hparts : r.type = some "AIMessageChunk" ∧ r.id = m := by
        simpa [isChunkWithId] using hc
      have hstep : (aiItems m (processRecord resume snapshot st r).timeline).map
          (fun it => it.content) = contentRep (cs ++ [r.content.getD ""]) := by
        obtain ⟨hty, hid⟩ := hparts
        subst hid
        simp only [processRecord, if_pos hty]
        exact aiItems_handleAIChunk resume _ r st.clock cs hinv
      have := ih (processRecord resume snapshot st r)
        (cs ++ [r.content.getD ""]) hstep
      rw [List.append_assoc] at this
      rw [if_pos hc]
      exact this
    · have hcf : isChunkWithId m r = false := by
        cases hb : isChunkWithId m r
        · rfl
        · exact absurd hb hc
      have hstep := aiItems_processRecord_preserved resume snapshot st r m hcf
      rw [if_neg hc, List.nil_append]
      exact ih (processRecord resume snapshot st r) cs (by rw [hstep]; exact hinv)

/-- C4: in a session starting from an empty timeline, the `AIMessageChunk`
records are grouped by their `id`: for each message id the timeline ends
with exactly one `ai_message` item whose content is the concatenation, in
arrival order, of the contents of the chunks with that id (a missing
content contributing `""`), and none when no such chunk arrived; the
per-line loop is the record-level fold of the parsed lines; and a chunk
whose id has no `ai_message` item yet appends the new item at the end of
the timeline. -/
theorem c4_ai_chunks_grouped_by_id (resume : Bool) (snapshot : List String)
    (rs : List Record) (st0 : ComponentState) (m : Option String)
    (h0 : st0.timeline = []) :
    ((aiItems m (processRecords resume snapshot st0 rs).timeline).map
        (fun it => it.content)
      = if rs.any (isChunkWithId m)
        then [TLContent.text (concatAll (chunkTexts m rs))] else []) ∧
    (∀ (parse : String → Option Record) (lines : List String)
        (st : ComponentState),
      processLines resume snapshot parse st lines
        = processRecords resume snapshot st (lines.filterMap parse)) ∧
    (∀ (st : ComponentState) (r : Record), r.type = some "AIMessageChunk" →
      aiItems r.id st.timeline = [] →
      ∃ tl1, (processRecord resume snapshot st r).timeline
        = tl1 ++ [newAiMessageItem r.id (r.content.getD "") st.clock]) := by
  refine ⟨?_, fun parse lines st => processLines_eq_processRecords .., ?_⟩
  · have h := c4_fold resume snapshot m rs st0 []
      (by rw [h0]; rfl)
    rw [List.nil_append] at h
    rw [h]
    by_cases hany : rs.any (isChunkWithId m) = true
    · rw [if_pos hany, contentRep_ne_nil]
      intro hnil
      have hfalse := (chunkTexts_eq_nil_iff m rs).mp hnil
      rw [hany] at hfalse
      exact Bool.noConfusion hfalse
    · have hfalse : rs.any (isChunkWithId m) = false := by
        cases hb : rs.any (isChunkWithId m)
        · rfl
        · exact absurd hb hany
      rw [if_neg hany,
        (contentRep_eq_nil_iff _).mpr ((chunkTexts_eq_nil_iff ..).mpr hfalse)]
  · intro st r hty hempty
    simp only [processRecord, if_pos hty]
    rw [show (handleAIMessageChunkRecord resume
          { st with clock := st.clock + 1 } r st.clock).timeline
        = _ from handleAIMessageChunkRecord_timeline ..]
    split
    · have hn : updateFirstAi r.id (r.content.getD "") st.clock
          (removeLastLoadingIndicator
            ({ st with clock := st.clock + 1 } : ComponentState).timeline)
          = none :=
        (updateFirstAi_none_iff ..).mpr
          (by rw [aiItems_removeLast]; exact hempty)
      rw [hn]
      exact ⟨removeLastLoadingIndicator
        (removeLastLoadingIndicator st.timeline), rfl⟩
    · have hn : updateFirstAi r.id (r.content.getD "") st.clock
          ({ st with clock := st.clock + 1 } : ComponentState).timeline
          = none :=
        (updateFirstAi_none_iff ..).mpr hempty
      rw [hn]
      exact ⟨st.timeline, rfl⟩

/-- C4 witness: three concrete chunks, two sharing id `m1`, leave exactly
one `ai_message` item for `m1` holding `"Hello"`. -/
theorem c4_ai_chunks_grouped_by_id_witness :
    demoInitial.timeline = [] ∧
    (aiItems (some "m1") (processRecords false [] demoInitial
        [demoChunkRecord "m1" "Hel", demoChunkRecord "m1" "lo",
         demoChunkRecord "m2" "Bye"]).timeline).map (fun it => it.content)
      = [TLContent.text "Hello"] := by
  refine ⟨by decide, ?_⟩
  rw [(c4_ai_chunks_grouped_by_id false []
      [demoChunkRecord "m1" "Hel", demoChunkRecord "m1" "lo",
       demoChunkRecord "m2" "Bye"] demoInitial (some "m1") (by decide)).1]
  decide

/-- C7 witness at the concrete `sg-1` send-message record and a concrete
non-matching key. -/
theorem c7_subgraph_stage_updates_witness :
    subgraphKeyMatch "$.invoke_send_rescheduling_proposal_to_invitee:sg-1.send_message"
      = some ("sg-1", "send_message") ∧
    lookupA (processSubgraphMessageResponse
        (StateVal.obj { emptyPayload with sent_message := some demoOutgoing })
        "$.invoke_send_rescheduling_proposal_to_invitee:sg-1.send_message"
        0 demoInitial).subgraphMessages "sg-1"
      = some { currentSubgraphEntry demoInitial "sg-1"
                 { emptyPayload with sent_message := some demoOutgoing }
               with sent := some demoOutgoing } ∧
    processSubgraphMessageResponse StateVal.null
      "$.invoke_send_rescheduling_proposal_to_invitee:noperiod" 0 demoInitial
      = demoInitial :=
  ⟨by decide,
   (c7_subgraph_stage_updates
      "$.invoke_send_rescheduling_proposal_to_invitee:sg-1.send_message"
      "sg-1" "send_message"
      { emptyPayload with sent_message := some demoOutgoing }
      demoInitial 0 (by decide)).2.1 demoOutgoing rfl rfl,
   (c7_subgraph_stage_updates
      "$.invoke_send_rescheduling_proposal_to_invitee:sg-1.send_message"
      "sg-1" "send_message"
      { emptyPayload with sent_message := some demoOutgoing }
      demoInitial 0 (by decide)).2.2.2.2.2.2
     "$.invoke_send_rescheduling_proposal_to_invitee:noperiod"
     StateVal.null demoInitial 0 (by decide)⟩

end CalendarUI
